import Mathlib

/-!
Verification of the E93-2026 storage stack: the ATA/ATAPI IDE driver
(src/drivers/ide.c), the ISO9660 filesystem driver (src/drivers/iso9660.c),
the VFS dispatch layer (src/lib/fs.c) and the syscall file-descriptor table
(src/kernel/syscall.c), shallowly embedded in Lean 4.

Bytes are modelled as `Nat` (with explicit masks/mods where C integer width
matters), byte strings as `List Nat`, and fallible operations as `Option` /
`Except`.  Device reads are modelled as functions from sector number to the
sector's bytes (`Option` for a device whose reads can fail).
-/

namespace E93

/-! ## Constants from the headers (include/fs.h, include/ide.h, include/iso9660.h) -/

def FS_MAX_NAME : Nat := 256
def FS_FILE : Nat := 0x01
def FS_DIRECTORY : Nat := 0x02
def FS_MOUNTPOINT : Nat := 0x08

def FS_OK : Int := 0
def FS_ERR_INVALID : Int := -5
/-- `FS_ERR_IO` in fs.h (renamed here). -/
def FS_ERR_IO_CODE : Int := -6

def ATA_TIMEOUT : Nat := 5000
def ATA_SR_BSY : Nat := 0x80
def ATA_SR_DF : Nat := 0x20
def ATA_SR_DRQ : Nat := 0x08
def ATA_SR_ERR : Nat := 0x01

def IDE_OK : Int := 0
def IDE_ERR_NO_DEVICE : Int := -1
def IDE_ERR_TIMEOUT : Int := -2
def IDE_ERR_DRIVE_FAULT : Int := -3
def IDE_ERR_READ : Int := -4
def IDE_ERR_INVALID : Int := -6

def IDE_TYPE_NONE : Nat := 0
def IDE_TYPE_ATA : Nat := 1
def IDE_TYPE_ATAPI : Nat := 2
def IDE_MAX_DRIVES : Nat := 4

def ISO9660_SECTOR_SIZE : Nat := 2048
def ISO9660_MAX_CACHED_ENTRIES : Nat := 64
def ISO9660_MAX_LONGNAME : Nat := 256
def ISO9660_FLAG_DIRECTORY : Nat := 0x02

def MAX_OPEN_FILES : Nat := 16

/-- Bytes of a Lean string literal (used only to write concrete test inputs
readably; all names in the embedding itself are raw `List Nat`). -/
def strBytes (s : String) : List Nat := s.toList.map Char.toNat

/-- Byte fetch from a byte list; out-of-range reads give 0 (the C code only
reads in range on well-formed media). -/
def getB (l : List Nat) (i : Nat) : Nat := l.getD i 0

/-- Little-endian 32-bit field at offset `i` of `l` (matches the packed
`uint32_t *_le` fields of `iso9660_dirent_t`). -/
def le32 (l : List Nat) (i : Nat) : Nat :=
  getB l i + 256 * getB l (i + 1) + 65536 * getB l (i + 2) + 16777216 * getB l (i + 3)

/-! ## C8 — iso9660_parse_filename (iso9660.c lines 84..105) -/

/-- ASCII lowercase fold of one byte, as in the final loop of
`iso9660_parse_filename` (`'A'..'Z'` mapped down by `'A' - 'a'`). -/
def toLowerByte (c : Nat) : Nat := if 65 ≤ c ∧ c ≤ 90 then c + 32 else c

/-- The copy loop of `iso9660_parse_filename`: copy bytes while the source has
not ended, the byte is not `';'` (59) and the destination index `j` is below
`FS_MAX_NAME - 1`. -/
def iso9660_copy_name : List Nat → Nat → List Nat
  | [], _ => []
  | c :: rest, j =>
    if c ≠ 59 ∧ j < FS_MAX_NAME - 1 then c :: iso9660_copy_name rest (j + 1) else []

/-- `iso9660_parse_filename(src, len, dst)` with `src` given as the `len` name
bytes: copy up to the first `';'` (bounded by the destination capacity), drop
one trailing `'.'` (46) if present, then fold ASCII letters to lowercase. -/
def iso9660_parse_filename (src : List Nat) : List Nat :=
  let copied := iso9660_copy_name src 0
  let dropped := if copied ≠ [] ∧ copied.getLast? = some 46 then copied.dropLast else copied
  dropped.map toLowerByte

/-- The spec's description of plain ISO9660 name normalization, written from
the spec's words for the refinement comparison: strip everything from the
first `';'` onward, drop one trailing `'.'`, fold to lowercase. -/
def spec_plain_name (src : List Nat) : List Nat :=
  let stripped := src.takeWhile (fun c => c ≠ 59)
  let dropped := if stripped.getLast? = some 46 then stripped.dropLast else stripped
  dropped.map toLowerByte

/-! ## C4 — ide_atapi_read_capacity (ide.c lines 218..276), data flow -/

/-- The words transferred by the four `inw` reads of the READ CAPACITY(10)
response: PIO packs consecutive response bytes little-endian into each
16-bit word. -/
def ide_capacity_word (resp : List Nat) (i : Nat) : Nat :=
  getB resp (2 * i) + 256 * getB resp (2 * i + 1)

/-- `capacity_data` as the driver stores it: each `inw` word written back as
two little-endian bytes (`uint16_t *buf = (uint16_t *)capacity_data`). -/
def ide_capacity_data (resp : List Nat) : List Nat :=
  [ide_capacity_word resp 0 % 256, ide_capacity_word resp 0 / 256 % 256,
   ide_capacity_word resp 1 % 256, ide_capacity_word resp 1 / 256 % 256,
   ide_capacity_word resp 2 % 256, ide_capacity_word resp 2 / 256 % 256,
   ide_capacity_word resp 3 % 256, ide_capacity_word resp 3 / 256 % 256]

/-- The capacity the driver computes on a successful READ CAPACITY(10)
exchange: big-endian 32-bit `last_lba` from `capacity_data[0..3]`, then
`last_lba + 1` in `uint32_t` arithmetic. -/
def ide_atapi_capacity (resp : List Nat) : Nat :=
  let cd := ide_capacity_data resp
  let last_lba := 16777216 * getB cd 0 + 65536 * getB cd 1 + 256 * getB cd 2 + getB cd 3
  (last_lba + 1) % 4294967296

/-- The capacity the claim describes: big-endian 32-bit value formed from the
LAST four bytes of the 8-byte response, plus one. -/
def claim_capacity_last4 (resp : List Nat) : Nat :=
  (16777216 * getB resp 4 + 65536 * getB resp 5 + 256 * getB resp 6 + getB resp 7 + 1)
    % 4294967296

/-! ## C9 — iso9660_alloc_node ring (iso9660.c lines 318..330) -/

/-- Content of one slot of the node cache (the fields of `fs_node_t` together
with its paired `iso9660_file_t` that the driver fills in). -/
structure IsoNodeSlot where
  name : List Nat
  flags : Nat
  inode : Nat
  length : Nat
  lba : Nat
  size : Nat
  fileFlags : Nat
deriving Repr, DecidableEq

/-- A slot cleared by the two `memset` calls in `iso9660_alloc_node`. -/
def clearedSlot : IsoNodeSlot :=
  { name := [], flags := 0, inode := 0, length := 0, lba := 0, size := 0, fileFlags := 0 }

/-- The node-cache state: the wrapping cursor `iso9660_cache_index` and the 64
slots of `iso9660_node_cache` / `iso9660_file_cache`. -/
structure IsoCache where
  index : Nat
  slots : Fin ISO9660_MAX_CACHED_ENTRIES → IsoNodeSlot

/-- `iso9660_alloc_node`: hand out the slot at the cursor, advance the cursor
modulo 64, and clear the handed-out slot.  Returns the slot number used. -/
def iso9660_alloc_node (st : IsoCache) : Nat × IsoCache :=
  (st.index % ISO9660_MAX_CACHED_ENTRIES,
   { index := (st.index + 1) % ISO9660_MAX_CACHED_ENTRIES,
     slots := fun i =>
       if (i : Nat) = st.index % ISO9660_MAX_CACHED_ENTRIES then clearedSlot
       else st.slots i })

/-- Slot used by the `k`-th allocation (0-based) after state `st`. -/
def allocSlotAt (st : IsoCache) : Nat → Nat
  | 0 => (iso9660_alloc_node st).1
  | k + 1 => allocSlotAt (iso9660_alloc_node st).2 k

/-- Cache state after `k` allocations. -/
def allocIter (st : IsoCache) : Nat → IsoCache
  | 0 => st
  | k + 1 => allocIter (iso9660_alloc_node st).2 k

/-! ## C6 — fs_register / fs_mount / fs_root (fs.c lines 159..207)

Filesystem driver mount functions are C function pointers; here they are
fields of the registered record (`Option` for a NULL pointer), and node
pointers are values of an abstract node type `α`. -/

/-- A registered `filesystem_t`: name plus the (possibly NULL) mount
function, which takes a drive number and returns the new root or NULL. -/
structure Filesystem (α : Type) where
  name : String
  mount : Option (Nat → Option α)

/-- The VFS globals of fs.c: the registration table and `fs_root_node`. -/
structure VfsState (α : Type) where
  filesystems : List (Filesystem α)
  root : Option α

/-- `fs_find`: first registered filesystem with the given name. -/
def fs_find {α : Type} (fss : List (Filesystem α)) (n : String) : Option (Filesystem α) :=
  fss.find? (fun fs => fs.name = n)

/-- `fs_mount`: look up the driver, invoke its mount function; the first
successful mount sets `fs_root_node`; the driver's result is returned to the
caller either way. -/
def fs_mount {α : Type} (st : VfsState α) (drive : Nat) (fstype : String) :
    Option α × VfsState α :=
  match fs_find st.filesystems fstype with
  | none => (none, st)
  | some fs =>
    match fs.mount with
    | none => (none, st)
    | some m =>
      let root := m drive
      match root, st.root with
      | some r, none => (some r, { st with root := some r })
      | _, _ => (root, st)

/-- `fs_root`. -/
def fs_root {α : Type} (st : VfsState α) : Option α := st.root

/-! ## C10 — sys_fopen / sys_fread / sys_fsize (syscall.c lines 567..688)

The node type is abstract (`ν`); the VFS calls the syscalls make
(`fs_namei`, `fs_read`, the node's flags and length fields) are passed in as
functions, exactly the data dependencies of the C code. -/

/-- One slot of `open_files`: the node pointer and the read cursor
(`uint32_t offset`).  A free slot (`node == NULL`) is `none`. -/
structure OpenFileEntry (ν : Type) where
  node : ν
  offset : Nat
deriving Repr, DecidableEq

/-- The `open_files` table. -/
def FdTable (ν : Type) : Type := Fin MAX_OPEN_FILES → Option (OpenFileEntry ν)

/-- Point update of the table. -/
def fdUpdate {ν : Type} (tbl : FdTable ν) (i : Fin MAX_OPEN_FILES)
    (v : Option (OpenFileEntry ν)) : FdTable ν :=
  fun j => if j = i then v else tbl j

/-- The descriptor-search loop of `sys_fopen`: the first free slot in
ascending order. -/
def firstFreeFd {ν : Type} (tbl : FdTable ν) : Option (Fin MAX_OPEN_FILES) :=
  (List.finRange MAX_OPEN_FILES).find? (fun i => (tbl i).isNone)

/-- `sys_fopen`: find a free descriptor, resolve the path, reject
directories, then store the node with cursor 0 and return `slot + 3`.
(`fs_open` is a no-op for the ISO9660 driver, whose nodes have no `open`
function pointer.) -/
def sys_fopen {ν : Type} (namei : List Nat → Option ν) (flagsOf : ν → Nat)
    (tbl : FdTable ν) (path : List Nat) : Int × FdTable ν :=
  match firstFreeFd tbl with
  | none => (-1, tbl)
  | some i =>
    match namei path with
    | none => (-1, tbl)
    | some node =>
      if flagsOf node &&& FS_DIRECTORY ≠ 0 then (-1, tbl)
      else (((i : Nat) + 3 : Nat), fdUpdate tbl i (some { node := node, offset := 0 }))

/-- `sys_fread`: validate the descriptor, read from the current cursor via
`fs_read`, and advance the cursor by the returned count when it is positive
(`uint32_t` addition). -/
def sys_fread {ν : Type} (readFn : ν → Nat → Nat → Int)
    (tbl : FdTable ν) (fd size : Nat) : Int × FdTable ν :=
  if h : 3 ≤ fd ∧ fd < 3 + MAX_OPEN_FILES then
    let idx : Fin MAX_OPEN_FILES := ⟨fd - 3, by omega⟩
    match tbl idx with
    | none => (-1, tbl)
    | some e =>
      let n := readFn e.node e.offset size
      if 0 < n then
        (n, fdUpdate tbl idx (some { node := e.node, offset := (e.offset + n.toNat) % 4294967296 }))
      else (n, tbl)
  else (-1, tbl)

/-- `sys_fsize`: validate the descriptor and return the node's `length`
field cast to a C `int`. -/
def sys_fsize {ν : Type} (lengthOf : ν → Nat) (tbl : FdTable ν) (fd : Nat) : Int :=
  if h : 3 ≤ fd ∧ fd < 3 + MAX_OPEN_FILES then
    let idx : Fin MAX_OPEN_FILES := ⟨fd - 3, by omega⟩
    match tbl idx with
    | none => -1
    | some e =>
      let len := lengthOf e.node % 4294967296
      if len < 2147483648 then (len : Int) else (len : Int) - 4294967296
  else -1

/-! ## C7 — IDE polling loops and entry points (ide.c)

The device behind a channel is modelled by the values successive port reads
return: `status n` is the `n`-th read of the status / alternate-status
register, `data n` the `n`-th read of the data port, and `lbaMid` / `lbaHi`
the signature registers read back by `ide_identify`.  Port writes have no
modelled observable (the polled protocol's responses are already captured by
the read streams), except that each read advances the corresponding
counter.  The register-file state of `ide_devices` is a function from drive
number to its record. -/

/-- Read streams of an IDE channel. -/
structure IdeBus where
  status : Nat → Nat
  data : Nat → Nat
  lbaMid : Nat
  lbaHi : Nat

/-- One entry of `ide_devices`. -/
structure IdeDev where
  present : Bool
  dtype : Nat
deriving Repr, DecidableEq

/-- `ide_400ns_delay`: four alternate-status reads. -/
def ide_400ns_delay (t : Nat) : Nat := t + 4

/-- The countdown loop of `ide_wait_bsy`; returns the final value of the
`timeout` variable and the next status-read index. -/
def ide_wait_bsy_loop (bus : IdeBus) (t timeout : Nat) : Nat × Nat :=
  if bus.status t &&& ATA_SR_BSY = 0 then (timeout, t + 1)
  else
    match timeout with
    | 0 => (0, t + 1)
    | tmo + 1 => ide_wait_bsy_loop bus (t + 1) tmo

/-- `ide_wait_bsy` (ide.c lines 47..55). -/
def ide_wait_bsy (bus : IdeBus) (t : Nat) : Int × Nat :=
  let r := ide_wait_bsy_loop bus t ATA_TIMEOUT
  (if r.1 = 0 then IDE_ERR_TIMEOUT else IDE_OK, r.2)

/-- The countdown loop of `ide_wait_drq` (ide.c lines 61..82), classifying
ERR / DF before checking for BSY-clear-and-DRQ. -/
def ide_wait_drq_loop (bus : IdeBus) (t timeout : Nat) : Int × Nat :=
  match timeout with
  | 0 => (IDE_ERR_TIMEOUT, t)
  | tmo + 1 =>
    let s := bus.status t
    if s &&& ATA_SR_ERR ≠ 0 then (IDE_ERR_READ, t + 1)
    else if s &&& ATA_SR_DF ≠ 0 then (IDE_ERR_DRIVE_FAULT, t + 1)
    else if s &&& ATA_SR_BSY = 0 ∧ s &&& ATA_SR_DRQ ≠ 0 then (IDE_OK, t + 1)
    else ide_wait_drq_loop bus (t + 1) tmo

/-- `ide_wait_drq`. -/
def ide_wait_drq (bus : IdeBus) (t : Nat) : Int × Nat :=
  ide_wait_drq_loop bus t ATA_TIMEOUT

/-- `ide_poll` (ide.c lines 88..113). -/
def ide_poll (bus : IdeBus) (t : Nat) (check_error : Bool) : Int × Nat :=
  let t := ide_400ns_delay t
  let r := ide_wait_bsy bus t
  if r.1 ≠ IDE_OK then r
  else if check_error then
    let s := bus.status r.2
    if s &&& ATA_SR_ERR ≠ 0 then (IDE_ERR_READ, r.2 + 1)
    else if s &&& ATA_SR_DF ≠ 0 then (IDE_ERR_DRIVE_FAULT, r.2 + 1)
    else if s &&& ATA_SR_DRQ = 0 then (IDE_ERR_READ, r.2 + 1)
    else (IDE_OK, r.2 + 1)
  else (IDE_OK, r.2)

/-- The BSY wait loop inside `ide_identify` (ide.c lines 170..174), which
re-reads the status register into the running `status` variable; returns the
final `(status, timeout)` pair and next read index. -/
def ide_identify_wait (bus : IdeBus) (s t timeout : Nat) : Nat × Nat × Nat :=
  if s &&& ATA_SR_BSY = 0 then (s, timeout, t)
  else
    match timeout with
    | 0 => (s, 0, t)
    | tmo + 1 => ide_identify_wait bus (bus.status t) (t + 1) tmo

/-- `ide_identify` (ide.c lines 145..210): returns the detected device type,
the 256 identification words read on success, and the advanced read
counters. -/
def ide_identify (bus : IdeBus) (t d : Nat) : Nat × List Nat × Nat × Nat :=
  let t := ide_400ns_delay t          -- ide_select_drive
  let t := ide_400ns_delay t          -- delay after the IDENTIFY command
  let s := bus.status t
  let t := t + 1
  if s = 0 then (IDE_TYPE_NONE, [], t, d)
  else
    let w := ide_identify_wait bus s t ATA_TIMEOUT
    if w.2.1 = 0 then (IDE_TYPE_NONE, [], w.2.2, d)
    else
      let step :
          Option Nat → Nat × List Nat × Nat × Nat :=
        fun ty? =>
          match ty? with
          | none => (IDE_TYPE_NONE, [], w.2.2, d)
          | some ty =>
            let t := if ty = IDE_TYPE_ATAPI then ide_400ns_delay w.2.2 else w.2.2
            let p := ide_poll bus t true
            if p.1 ≠ IDE_OK then (IDE_TYPE_NONE, [], p.2, d)
            else
              ((ty, (List.range 256).map (fun i => bus.data (d + i)), p.2, d + 256))
      if bus.lbaMid = 0x14 ∧ bus.lbaHi = 0xEB then step (some IDE_TYPE_ATAPI)
      else if bus.lbaMid = 0x69 ∧ bus.lbaHi = 0x96 then step (some IDE_TYPE_ATAPI)
      else if bus.lbaMid ≠ 0 ∨ bus.lbaHi ≠ 0 then step none
      else step (some IDE_TYPE_ATA)

/-- The per-sector transfer loop of `ide_read_sectors` / `ide_atapi_read`:
poll with error check, then read `wps` data words per sector. -/
def ide_pio_read_loop (bus : IdeBus) (wps : Nat) : Nat → Nat → Nat → Int × List Nat × Nat × Nat
  | 0, t, d => (IDE_OK, [], t, d)
  | c + 1, t, d =>
    let p := ide_poll bus t true
    if p.1 ≠ IDE_OK then (p.1, [], p.2, d)
    else
      let ws := (List.range wps).map (fun i => bus.data (d + i))
      let r := ide_pio_read_loop bus wps c p.2 (d + wps)
      (r.1, ws ++ r.2.1, r.2.2)

/-- `ide_read_sectors` (ide.c lines 394..455): validation, BSY wait, drive
select, command issue, then the per-sector PIO loop (256 words each). -/
def ide_read_sectors (devs : Nat → IdeDev) (bus : IdeBus) (drive lba sectors t d : Nat) :
    Int × List Nat × Nat × Nat :=
  if drive ≥ IDE_MAX_DRIVES then (IDE_ERR_INVALID, [], t, d)
  else if ¬(devs drive).present then (IDE_ERR_NO_DEVICE, [], t, d)
  else if (devs drive).dtype ≠ IDE_TYPE_ATA then (IDE_ERR_INVALID, [], t, d)
  else
    let w := ide_wait_bsy bus t
    if w.1 ≠ IDE_OK then (w.1, [], w.2, d)
    else
      let t := ide_400ns_delay w.2
      ide_pio_read_loop bus 256 sectors t d

/-- The per-sector loop of `ide_write_sectors`: poll (no error check), wait
for DRQ, transfer (writes are not modelled reads). -/
def ide_write_loop (bus : IdeBus) : Nat → Nat → Int × Nat
  | 0, t => (IDE_OK, t)
  | c + 1, t =>
    let p := ide_poll bus t false
    if p.1 ≠ IDE_OK then p
    else
      let q := ide_wait_drq bus p.2
      if q.1 ≠ IDE_OK then q
      else ide_write_loop bus c q.2

/-- `ide_write_sectors` (ide.c lines 460..531), ending with the cache-flush
BSY wait whose result is returned. -/
def ide_write_sectors (devs : Nat → IdeDev) (bus : IdeBus) (drive lba sectors t : Nat) :
    Int × Nat :=
  if drive ≥ IDE_MAX_DRIVES then (IDE_ERR_INVALID, t)
  else if ¬(devs drive).present then (IDE_ERR_NO_DEVICE, t)
  else if (devs drive).dtype ≠ IDE_TYPE_ATA then (IDE_ERR_INVALID, t)
  else
    let w := ide_wait_bsy bus t
    if w.1 ≠ IDE_OK then w
    else
      let t := ide_400ns_delay w.2
      let l := ide_write_loop bus sectors t
      if l.1 ≠ IDE_OK then l
      else ide_wait_bsy bus l.2

/-- `ide_atapi_read` (ide.c lines 536..617): validation, BSY wait, drive
select, PACKET command, DRQ wait, CDB transfer, then the per-sector PIO loop
(1024 words each). -/
def ide_atapi_read (devs : Nat → IdeDev) (bus : IdeBus) (drive lba sectors t d : Nat) :
    Int × List Nat × Nat × Nat :=
  if drive ≥ IDE_MAX_DRIVES then (IDE_ERR_INVALID, [], t, d)
  else if ¬(devs drive).present then (IDE_ERR_NO_DEVICE, [], t, d)
  else if (devs drive).dtype ≠ IDE_TYPE_ATAPI then (IDE_ERR_INVALID, [], t, d)
  else
    let w := ide_wait_bsy bus t
    if w.1 ≠ IDE_OK then (w.1, [], w.2, d)
    else
      let t := ide_400ns_delay w.2
      let q := ide_wait_drq bus t
      if q.1 ≠ IDE_OK then (q.1, [], q.2, d)
      else ide_pio_read_loop bus 1024 sectors q.2 d

/-- `ide_atapi_eject` (ide.c lines 622..684): validation, BSY wait, PACKET
command, DRQ wait, CDB transfer, then a final BSY wait whose result is
returned. -/
def ide_atapi_eject (devs : Nat → IdeDev) (bus : IdeBus) (drive t : Nat) : Int × Nat :=
  if drive ≥ IDE_MAX_DRIVES then (IDE_ERR_INVALID, t)
  else if ¬(devs drive).present then (IDE_ERR_NO_DEVICE, t)
  else if (devs drive).dtype ≠ IDE_TYPE_ATAPI then (IDE_ERR_INVALID, t)
  else
    let w := ide_wait_bsy bus t
    if w.1 ≠ IDE_OK then w
    else
      let t := ide_400ns_delay w.2
      let q := ide_wait_drq bus t
      if q.1 ≠ IDE_OK then q
      else ide_wait_bsy bus q.2

/-! ## C5 — fs_finddir / fs_namei (fs.c lines 134..154, 212..262)

A node is a value of an abstract type `α`; the per-node data the VFS
dereferences (`flags`, the mount-point `ptr`, the `finddir` function
pointer) is supplied by a `VfsOps` record, mirroring the struct of function
pointers.  Paths are byte lists (`'/'` is 47, `'.'` is 46). -/

/-- The node fields the VFS dispatch layer reads. -/
structure VfsOps (α : Type) where
  flags : α → Nat
  ptr : α → Option α
  finddirFn : α → Option (List Nat → Option α)

/-- `fs_finddir`: NULL checks, mount-point redirect, directory check, then
the driver's `finddir`. -/
def fs_finddir {α : Type} (ops : VfsOps α) (node : Option α) (name : Option (List Nat)) :
    Option α :=
  match node, name with
  | some n, some nm =>
    let n := if ops.flags n &&& FS_MOUNTPOINT ≠ 0 then (ops.ptr n).getD n else n
    if ops.flags n &&& 0x07 ≠ FS_DIRECTORY then none
    else
      match ops.finddirFn n with
      | none => none
      | some f => f nm
  | _, _ => none

/-- The slash-skipping and component-dropping steps of the `fs_namei` loop
only shorten the path. -/
theorem length_dropWhile_le' {α : Type} (p : α → Bool) (l : List α) :
    (l.dropWhile p).length ≤ l.length :=
  (List.dropWhile_sublist (l := l) (p := p)).length_le

/-- One path component as `fs_namei` extracts it: bytes up to the next `'/'`,
capped at `FS_MAX_NAME - 1` characters. -/
def nameiComponent (p : List Nat) : List Nat :=
  (p.takeWhile (fun c => c ≠ 47)).take (FS_MAX_NAME - 1)

/-- The remainder of the path after one `fs_namei` iteration is strictly
shorter: either a component of at least one byte was consumed, or the leading
byte was a slash consumed by the slash-skipping loop. -/
theorem nameiRest_lt (c : Nat) (p : List Nat) :
    (((c :: p).drop (nameiComponent (c :: p)).length).dropWhile (fun b => b = 47)).length <
      (c :: p).length := by
  by_cases hc : c = 47
  · subst hc
    have h1 : nameiComponent (47 :: p) = [] := by
      simp [nameiComponent, List.takeWhile_cons]
    rw [h1]
    simp only [List.length_nil, List.drop_zero, List.dropWhile_cons, List.length_cons]
    have h2 := length_dropWhile_le' (fun b => decide (b = 47)) p
    split
    · omega
    · simp at *
  · have h1 : nameiComponent (c :: p) ≠ [] := by
      simp [nameiComponent, List.takeWhile_cons, hc, FS_MAX_NAME]
    have h3 : 0 < (nameiComponent (c :: p)).length := List.length_pos.mpr h1
    have h2 := length_dropWhile_le' (fun b => decide (b = 47))
      ((c :: p).drop (nameiComponent (c :: p)).length)
    have h4 := List.length_drop (nameiComponent (c :: p)).length (c :: p)
    simp only [List.length_cons] at h4 ⊢
    omega

/-- The component loop of `fs_namei`: extract a component, skip following
slashes, treat `"."` and `".."` as no-ops, otherwise look the component up
with `fs_finddir`; stop when the path is exhausted or the current node has
become NULL. -/
def nameiLoop {α : Type} (ops : VfsOps α) : Option α → List Nat → Option α
  | none, _ => none
  | some cur, [] => some cur
  | some cur, c :: p =>
    let comp := nameiComponent (c :: p)
    let rest := ((c :: p).drop comp.length).dropWhile (fun b => b = 47)
    if comp = [46] then nameiLoop ops (some cur) rest
    else if comp = [46, 46] then nameiLoop ops (some cur) rest
    else nameiLoop ops (fs_finddir ops (some cur) (some comp)) rest
  termination_by cur p => p.length
  decreasing_by
    all_goals exact nameiRest_lt c p

/-- `fs_namei` (fs.c lines 212..262).  `root` is the global `fs_root_node`,
`path` the argument (NULL modelled as `none`). -/
def fs_namei {α : Type} (ops : VfsOps α) (root : Option α) (path : Option (List Nat)) :
    Option α :=
  match path, root with
  | some p, some r =>
    if p = [47] then some r
    else
      let p := if p.head? = some 47 then p.tail else p
      nameiLoop ops (some r) p
  | _, _ => none

/-! ## C1 — iso9660_read (iso9660.c lines 335..377)

The ATAPI device behind `iso9660_read_sectors` is a function from sector
number to the 2048 sector bytes, `none` for a failed read.  The function
returns the bytes copied into the caller's buffer (`.ok bytes`, the C return
value being their count) or the error code.  `uint32_t` wrap matters in the
size-clamp comparison and is modelled there; sector numbers stay far below
2^32 on any real medium, so the (unreachable) wrap of `start_sector` is not
modelled. -/

/-- The copy loop of `iso9660_read`: read one sector, copy
`min(SECTOR_SIZE - sector_offset, remaining)` bytes from it, continue at the
next sector with in-sector offset 0. -/
def iso9660_read_loop (rs : Nat → Option (List Nat)) :
    (sector sectorOffset remaining : Nat) → sectorOffset < ISO9660_SECTOR_SIZE →
    Except Int (List Nat)
  | sector, so, remaining, _ =>
    if hrem : remaining = 0 then .ok []
    else
      match rs sector with
      | none => .error FS_ERR_IO_CODE
      | some sec =>
        let toCopy := min (ISO9660_SECTOR_SIZE - so) remaining
        match iso9660_read_loop rs (sector + 1) 0 (remaining - toCopy)
            (by simp [ISO9660_SECTOR_SIZE]) with
        | .error e => .error e
        | .ok rest => .ok ((sec.drop so).take toCopy ++ rest)
  termination_by sector so remaining _ => remaining
  decreasing_by
    simp only [ISO9660_SECTOR_SIZE] at *
    omega

/-- `iso9660_read`: bounds check against the file size, `uint32_t` clamp of
the requested size to the remaining file size, then the sector copy loop
starting at `lba + offset / 2048` with in-sector offset `offset % 2048`. -/
def iso9660_read (rs : Nat → Option (List Nat)) (lba fileSize offset size : Nat) :
    Except Int (List Nat) :=
  if fileSize ≤ offset then .ok []
  else
    let size := if fileSize < (offset + size) % 4294967296 then fileSize - offset else size
    iso9660_read_loop rs (lba + offset / ISO9660_SECTOR_SIZE) (offset % ISO9660_SECTOR_SIZE)
      size (Nat.mod_lt _ (by simp [ISO9660_SECTOR_SIZE]))

/-- Byte at global byte position `g` of the device (sector `g / 2048`,
in-sector index `g % 2048`). -/
def diskByte (disk : Nat → List Nat) (g : Nat) : Nat :=
  getB (disk (g / ISO9660_SECTOR_SIZE)) (g % ISO9660_SECTOR_SIZE)

/-- Number of sector reads the copy loop performs for in-sector offset `so`
and `rem` bytes. -/
def sectorsNeeded (so rem : Nat) : Nat :=
  if rem = 0 then 0 else (so + rem + (ISO9660_SECTOR_SIZE - 1)) / ISO9660_SECTOR_SIZE

/-! ## ISO9660 directory records and name resolution (iso9660.c lines 54..313)

A directory record is addressed as `(buf, off)`: the bytes of the sector
holding it and its offset there (the C code's `iso9660_dirent_t *` into
`iso9660_sector_buf`).  Field offsets follow the packed `iso9660_dirent_t`
of iso9660.h. -/

/-- `entry->length`. -/
def entLength (buf : List Nat) (off : Nat) : Nat := getB buf off

/-- `entry->extent_lba_le` (bytes 2..5, little-endian). -/
def entExtent (buf : List Nat) (off : Nat) : Nat := le32 buf (off + 2)

/-- `entry->data_length_le` (bytes 10..13, little-endian). -/
def entDataLen (buf : List Nat) (off : Nat) : Nat := le32 buf (off + 10)

/-- `entry->flags` (byte 25). -/
def entFlags (buf : List Nat) (off : Nat) : Nat := getB buf (off + 25)

/-- `entry->name_length` (byte 32). -/
def entNameLen (buf : List Nat) (off : Nat) : Nat := getB buf (off + 32)

/-- `entry->name` (bytes from 33, `name_length` of them). -/
def entName (buf : List Nat) (off : Nat) : List Nat :=
  (buf.drop (off + 33)).take (entNameLen buf off)

/-- The filesystem-instance fields of `iso9660_fs_t` that name resolution
reads (the drive number is folded into the sector-read function). -/
structure IsoFsData where
  has_rock_ridge : Bool
  susp_skip : Nat
  has_joliet : Bool

/-- `iso9660_ucs2_to_ascii` (iso9660.c lines 61..78): decode big-endian
UCS-2 pairs while two source bytes remain and the destination has room;
code points below 128 other than `';'` are copied, `';'` (59) stops the
decode, anything else becomes `'_'` (95). -/
def ucs2Aux (dstSize : Nat) : List Nat → Nat → List Nat
  | a :: b :: rest, j =>
    if j < dstSize - 1 then
      let ch := 256 * a + b
      if ch < 128 ∧ ch ≠ 59 then ch :: ucs2Aux dstSize rest (j + 1)
      else if ch = 59 then []
      else 95 :: ucs2Aux dstSize rest (j + 1)
    else []
  | _, _ => []

/-- `iso9660_ucs2_to_ascii(src, src_len, dst, dst_size)` with `src` the raw
name bytes. -/
def iso9660_ucs2_to_ascii (src : List Nat) (dstSize : Nat) : List Nat :=
  ucs2Aux dstSize src 0

/-- The spec's description of the Joliet decode, written from its words for
the refinement comparison: each big-endian 2-byte code point below 128 is
copied as ASCII, a `';'` code point terminates decoding, other code points
are replaced with `'_'`. -/
def spec_joliet_decode : List Nat → List Nat
  | a :: b :: rest =>
    let ch := 256 * a + b
    if ch = 59 then []
    else if ch < 128 then ch :: spec_joliet_decode rest
    else 95 :: spec_joliet_decode rest
  | _ => []

/-- Rock Ridge NM flag bits.  Modelled from the spec: the NM entry's flag
bits select continue / current-directory / parent-directory (the
`RRIP_NM_*` constants are declared in a header revision not present under
src/). -/
def RRIP_NM_CONTINUE : Nat := 0x01
def RRIP_NM_CURRENT : Nat := 0x02
def RRIP_NM_PARENT : Nat := 0x04

/-- SUSP entry signature as `susp_get_signature` builds it: first byte high,
second byte low.  Modelled from the spec: a SUSP entry starts with a 2-byte
signature followed by a 1-byte length at offset 2 and a version byte (the
`susp_entry_t` layout is declared in a header revision not present under
src/). -/
def suspSig (buf : List Nat) (pos : Nat) : Nat :=
  256 * getB buf pos + getB buf (pos + 1)

/-- `'N' 'M'` and `'C' 'E'` signatures. -/
def RRIP_SIG_NM : Nat := 256 * 78 + 77
def RRIP_SIG_CE : Nat := 256 * 67 + 69

/-- The inner loop of `iso9660_parse_rock_ridge_name` over a continuation
area (iso9660.c lines 218..243): only NM entries are processed; the NM
payload starts after the 5-byte header (signature, length, version, flags).
Returns the updated `(name_found, dst)` accumulator.  `fuel` (the loop is
entered with `fuel = rem`) only bounds the recursion: every iteration
consumes at least one byte of `rem`, so the `fuel = 0` arm is never the
reason the scan stops. -/
def rr_ce_loop (cbuf : List Nat) : (fuel pos rem : Nat) → List Nat → Bool → Bool × List Nat
  | 0, _, _, acc, found => (found, acc)
  | fuel + 1, pos, rem, acc, found =>
    if rem < 4 then (found, acc)
    else
      let len := getB cbuf (pos + 2)
      if len = 0 ∨ rem < len then (found, acc)
      else
        if suspSig cbuf pos = RRIP_SIG_NM then
          let flags := getB cbuf (pos + 4)
          let nmLen := len - 5
          let room := 0 < nmLen ∧ acc.length + nmLen < ISO9660_MAX_LONGNAME - 1
          let acc2 := if room then acc ++ (cbuf.drop (pos + 5)).take nmLen else acc
          let found2 := if room then true else found
          if flags &&& RRIP_NM_CONTINUE = 0 then (found2, acc2)
          else rr_ce_loop cbuf fuel (pos + len) (rem - len) acc2 found2
        else rr_ce_loop cbuf fuel (pos + len) (rem - len) acc found

/-- The System Use scan loop of `iso9660_parse_rock_ridge_name` (iso9660.c
lines 168..250).  An NM entry with the current/parent flag returns `"."` /
`".."` immediately; a literal NM appends its payload (when it fits below
`ISO9660_MAX_LONGNAME - 1`) and stops unless the continue flag is set; a CE
entry reads its continuation sector (`block_le` at byte 4, `offset_le` at
byte 12, `cont_length_le` at byte 20 — CE field layout modelled from the
spec's `block, offset, length` description, the struct being declared in a
header revision not present under src/), scans it for NM entries, and stops
the outer scan. -/
def rr_su_loop (rs : Nat → Option (List Nat)) (buf : List Nat) :
    (fuel pos rem : Nat) → List Nat → Bool → Bool × List Nat
  | 0, _, _, acc, found => (found, acc)
  | fuel + 1, pos, rem, acc, found =>
    if rem < 4 then (found, acc)
    else
      let len := getB buf (pos + 2)
      if len = 0 ∨ rem < len then (found, acc)
      else
        if suspSig buf pos = RRIP_SIG_NM then
          let flags := getB buf (pos + 4)
          if flags &&& RRIP_NM_CURRENT ≠ 0 then (true, [46])
          else if flags &&& RRIP_NM_PARENT ≠ 0 then (true, [46, 46])
          else
            let nmLen := len - 5
            let room := 0 < nmLen ∧ acc.length + nmLen < ISO9660_MAX_LONGNAME - 1
            let acc2 := if room then acc ++ (buf.drop (pos + 5)).take nmLen else acc
            let found2 := if room then true else found
            if flags &&& RRIP_NM_CONTINUE = 0 then (found2, acc2)
            else rr_su_loop rs buf fuel (pos + len) (rem - len) acc2 found2
        else if suspSig buf pos = RRIP_SIG_CE then
          match rs (le32 buf (pos + 4)) with
          | some cbuf =>
            rr_ce_loop cbuf (le32 buf (pos + 20)) (le32 buf (pos + 12)) (le32 buf (pos + 20))
              acc found
          | none => (found, acc)
        else rr_su_loop rs buf fuel (pos + len) (rem - len) acc found

/-- `iso9660_parse_rock_ridge_name` (iso9660.c lines 141..253): compute the
System Use offset `33 + name_length (+1 pad if even) + susp_skip` in
`uint8_t` arithmetic, check it against the record length, scan, and return
the name if one was found. -/
def iso9660_parse_rock_ridge_name (rs : Nat → Option (List Nat)) (fsd : IsoFsData)
    (buf : List Nat) (off : Nat) : Option (List Nat) :=
  if ¬fsd.has_rock_ridge then none
  else
    let name_len := entNameLen buf off
    let su_off := (33 + name_len + (if name_len % 2 = 0 then 1 else 0) + fsd.susp_skip) % 256
    if entLength buf off ≤ su_off then none
    else
      let r := rr_su_loop rs buf (entLength buf off - su_off) (off + su_off)
        (entLength buf off - su_off) [] false
      if r.1 then some r.2 else none

/-- The name-resolution chain shared by `iso9660_readdir` (lines 427..441)
and `iso9660_finddir` (lines 500..511): Rock Ridge first, then Joliet, then
the plain ISO9660 normalization. -/
def iso9660_resolve_name (rs : Nat → Option (List Nat)) (fsd : IsoFsData)
    (buf : List Nat) (off : Nat) : List Nat :=
  match iso9660_parse_rock_ridge_name rs fsd buf off with
  | some nm => nm
  | none =>
    if fsd.has_joliet then iso9660_ucs2_to_ascii (entName buf off) FS_MAX_NAME
    else iso9660_parse_filename (entName buf off)

/-- The name `iso9660_finddir` compares against: `"."` / `".."` for the two
dot records, otherwise the resolution chain. -/
def iso9660_entry_display_name (rs : Nat → Option (List Nat)) (fsd : IsoFsData)
    (buf : List Nat) (off : Nat) : List Nat :=
  if entNameLen buf off = 1 ∧ getB buf (off + 33) = 0 then [46]
  else if entNameLen buf off = 1 ∧ getB buf (off + 33) = 1 then [46, 46]
  else iso9660_resolve_name rs fsd buf off

/-- `iso9660_compare_name` (iso9660.c lines 110..128): case-insensitive
byte compare, returning the first difference or the final byte difference. -/
def iso9660_compare_name : List Nat → List Nat → Int
  | [], [] => 0
  | [], b :: _ => 0 - (b : Int)
  | a :: _, [] => (a : Int)
  | a :: as, b :: bs =>
    let c1 := toLowerByte a
    let c2 := toLowerByte b
    if c1 ≠ c2 then (c1 : Int) - (c2 : Int) else iso9660_compare_name as bs

/-- What `iso9660_readdir` returns through the static `iso9660_dirent`: the
resolved name and the inode (`extent_lba_le`). -/
structure DirentRec where
  name : List Nat
  inode : Nat
deriving Repr, DecidableEq

/-- The directory walk of `iso9660_readdir` (iso9660.c lines 382..449).
`fuel` bounds the recursion; every iteration of the C loop decreases
`bytes_remaining` by at least one (a record length is nonzero in the record
branches, and the zero-length skip is at least one byte), so `fuel =
bytes_remaining + 1` makes the bound unreachable. -/
def iso9660_readdir_loop (rs : Nat → Option (List Nat)) (fsd : IsoFsData) (index : Nat) :
    (fuel cur rem off idx : Nat) → List Nat → Option DirentRec
  | 0, _, _, _, _, _ => none
  | fuel + 1, cur, rem, off, idx, buf =>
    if rem = 0 then none
    else
      match (if off = 0 ∨ ISO9660_SECTOR_SIZE ≤ off then
              (rs cur).map (fun b => (cur + 1, 0, b))
             else some (cur, off, buf)) with
      | none => none
      | some (cur, off, buf) =>
        let len := entLength buf off
        if len = 0 then
          let skip := ISO9660_SECTOR_SIZE - off
          if rem < skip then none
          else iso9660_readdir_loop rs fsd index fuel cur (rem - skip) ISO9660_SECTOR_SIZE idx buf
        else if entNameLen buf off = 1 ∧ (getB buf (off + 33) = 0 ∨ getB buf (off + 33) = 1) then
          iso9660_readdir_loop rs fsd index fuel cur (rem - len) (off + len) idx buf
        else if idx = index then
          some { name := iso9660_resolve_name rs fsd buf off, inode := entExtent buf off }
        else iso9660_readdir_loop rs fsd index fuel cur (rem - len) (off + len) (idx + 1) buf

/-- `iso9660_readdir` on a directory node with extent `lba` and byte length
`size` (from the node's `iso9660_file_t`). -/
def iso9660_readdir (rs : Nat → Option (List Nat)) (fsd : IsoFsData)
    (lba size index : Nat) : Option DirentRec :=
  iso9660_readdir_loop rs fsd index (size + 1) lba size 0 0 []

/-- The same directory walk collecting the non-dot records in on-media
order (the specification-side enumeration the bounded-listing claim is
stated against); a record is the `(sector bytes, offset)` pair addressing
it. -/
def iso9660_entries_loop (disk : Nat → List Nat) :
    (fuel cur rem off : Nat) → List Nat → List (List Nat × Nat)
  | 0, _, _, _, _ => []
  | fuel + 1, cur, rem, off, buf =>
    if rem = 0 then []
    else
      match (if off = 0 ∨ ISO9660_SECTOR_SIZE ≤ off then (cur + 1, 0, disk cur)
             else (cur, off, buf)) with
      | (cur, off, buf) =>
        let len := entLength buf off
        if len = 0 then
          let skip := ISO9660_SECTOR_SIZE - off
          if rem < skip then []
          else iso9660_entries_loop disk fuel cur (rem - skip) ISO9660_SECTOR_SIZE buf
        else if entNameLen buf off = 1 ∧ (getB buf (off + 33) = 0 ∨ getB buf (off + 33) = 1) then
          iso9660_entries_loop disk fuel cur (rem - len) (off + len) buf
        else
          (buf, off) :: iso9660_entries_loop disk fuel cur (rem - len) (off + len) buf

/-- The non-dot records of the directory extent at `(lba, size)`. -/
def iso9660_nonDotEntries (disk : Nat → List Nat) (lba size : Nat) : List (List Nat × Nat) :=
  iso9660_entries_loop disk (size + 1) lba size 0 []

/-- The node `iso9660_finddir` builds on a match (iso9660.c lines 516..537),
written into the ring slot `iso9660_alloc_node` hands out: `fs_node_t`
fields and the paired `iso9660_file_t`. -/
structure FoundNode where
  name : List Nat
  inode : Nat
  length : Nat
  flags : Nat
  lba : Nat
  size : Nat
  fileFlags : Nat
deriving Repr, DecidableEq

/-- The directory walk of `iso9660_finddir` (iso9660.c lines 454..545):
resolve each record's display name (dot records specially) and return a
fully wired node on the first case-insensitive match. -/
def iso9660_finddir_loop (rs : Nat → Option (List Nat)) (fsd : IsoFsData) (name : List Nat) :
    (fuel cur rem off : Nat) → List Nat → Option FoundNode
  | 0, _, _, _, _ => none
  | fuel + 1, cur, rem, off, buf =>
    if rem = 0 then none
    else
      match (if off = 0 ∨ ISO9660_SECTOR_SIZE ≤ off then
              (rs cur).map (fun b => (cur + 1, 0, b))
             else some (cur, off, buf)) with
      | none => none
      | some (cur, off, buf) =>
        let len := entLength buf off
        if len = 0 then
          let skip := ISO9660_SECTOR_SIZE - off
          if rem < skip then none
          else iso9660_finddir_loop rs fsd name fuel cur (rem - skip) ISO9660_SECTOR_SIZE buf
        else
          let pn := iso9660_entry_display_name rs fsd buf off
          if iso9660_compare_name pn name = 0 then
            some { name := pn
                   inode := entExtent buf off
                   length := entDataLen buf off
                   flags := if entFlags buf off &&& ISO9660_FLAG_DIRECTORY ≠ 0 then FS_DIRECTORY
                            else FS_FILE
                   lba := entExtent buf off
                   size := entDataLen buf off
                   fileFlags := entFlags buf off }
          else iso9660_finddir_loop rs fsd name fuel cur (rem - len) (off + len) buf

/-- `iso9660_finddir` on a directory node with extent `(lba, size)`. -/
def iso9660_finddir (rs : Nat → Option (List Nat)) (fsd : IsoFsData)
    (lba size : Nat) (name : List Nat) : Option FoundNode :=
  iso9660_finddir_loop rs fsd name (size + 1) lba size 0 []

/-! ## Concrete fixtures used by witnesses and counterexamples -/

/-- A fresh node cache, as `iso9660_init` leaves it. -/
def freshCache : IsoCache :=
  { index := 0, slots := fun _ => clearedSlot }

/-- A channel whose device never clears BSY: every status read shows 0x80. -/
def busyBus : IdeBus :=
  { status := fun _ => 0x80, data := fun _ => 0, lbaMid := 0, lbaHi := 0 }

/-- A channel with no device: every status read returns 0. -/
def absentBus : IdeBus :=
  { status := fun _ => 0, data := fun _ => 0, lbaMid := 0, lbaHi := 0 }

/-- A concrete two-node tree for the path-resolution counterexample: node 0
is the root directory whose only entry is `a` (node 1). -/
def cexOps : VfsOps Nat :=
  { flags := fun _ => FS_DIRECTORY
    ptr := fun _ => none
    finddirFn := fun n =>
      if n = 0 then some (fun nm => if nm = strBytes "a" then some 1 else none)
      else some (fun _ => none) }

/-- A device all of whose sectors read back as 2048 zero bytes. -/
def allZeroDisk : Nat → List Nat := fun _ => List.replicate ISO9660_SECTOR_SIZE 0

/-- Little-endian encoding of a 32-bit value as four bytes. -/
def le4 (n : Nat) : List Nat := [n % 256, n / 256 % 256, n / 65536 % 256, n / 16777216 % 256]

/-- A concrete on-media directory record: record length, extent, data
length, flags, and name bytes, zero-padded to the record length. -/
def mkRecord (len ext dlen flags : Nat) (name : List Nat) : List Nat :=
  let base := [len, 0] ++ le4 ext ++ le4 0 ++ le4 dlen ++ le4 0
    ++ List.replicate 7 0 ++ [flags, 0, 0, 0, 0, 0, 0, name.length] ++ name
  base ++ List.replicate (len - base.length) 0

/-- A directory sector holding `.`, `..` and one plain file entry
`HELLO.TXT;1` (extent 100, 5 bytes), then zero padding. -/
def dirSectorW : List Nat :=
  mkRecord 34 20 2048 2 [0] ++ mkRecord 34 19 2048 2 [1]
    ++ mkRecord 44 100 5 0 (strBytes "HELLO.TXT;1")
    ++ List.replicate (ISO9660_SECTOR_SIZE - 112) 0

/-- The device serving that directory sector. -/
def dirDiskW : Nat → List Nat := fun _ => dirSectorW

/-- A mount with neither Rock Ridge nor Joliet. -/
def fsdPlain : IsoFsData := { has_rock_ridge := false, susp_skip := 0, has_joliet := false }

/-- A mount with both Rock Ridge and Joliet. -/
def fsdBoth : IsoFsData := { has_rock_ridge := true, susp_skip := 0, has_joliet := true }

/-- A synthetic directory record carrying both Joliet name bytes (UCS-2
`AB`) and a Rock Ridge NM entry (`rrname`) in its System Use area. -/
def bufBoth : List Nat :=
  [49, 0] ++ le4 7 ++ le4 0 ++ le4 9 ++ le4 0 ++ List.replicate 7 0
    ++ [0, 0, 0, 0, 0, 0, 0, 4] ++ [0, 65, 0, 66] ++ [0]
    ++ [78, 77, 11, 1, 0] ++ strBytes "rrname"

/-- A registered iso9660 driver whose mount always yields node 42. -/
def fsW : Filesystem Nat := { name := "iso9660", mount := some (fun _ => some 42) }

/-- VFS state with no root yet. -/
def stW : VfsState Nat := { filesystems := [fsW], root := none }

/-- VFS state whose root is already node 7. -/
def stW2 : VfsState Nat := { filesystems := [fsW], root := some 7 }

/-- An empty file-descriptor table. -/
def tblW : FdTable Nat := fun _ => none

/-! ## Theorems -/

/-- The copy loop of `iso9660_parse_filename` never hits its capacity bound
for sources that fit (a name field holds at most 255 bytes), so it is the
semicolon-truncating prefix. -/
theorem iso9660_copy_name_eq_takeWhile (src : List Nat) (j : Nat)
    (h : src.length + j ≤ FS_MAX_NAME - 1) :
    iso9660_copy_name src j = src.takeWhile (fun c => c ≠ 59) := by
  induction src generalizing j with
  | nil => simp [iso9660_copy_name]
  | cons c rest ih =>
    simp only [iso9660_copy_name, List.takeWhile_cons]
    by_cases hc : c = 59
    · subst hc
      simp
    · have hj : j < FS_MAX_NAME - 1 := by
        simp only [List.length_cons] at h
        omega
      have hr : rest.length + (j + 1) ≤ FS_MAX_NAME - 1 := by
        simp only [List.length_cons] at h
        omega
      simp [hc, hj, ih (j + 1) hr]

/-- The emptiness conjunct in the code's trailing-dot test is redundant:
`getLast? = some 46` already implies the list is nonempty. -/
theorem dropDotIf_eq (X : List Nat) :
    (if X ≠ [] ∧ X.getLast? = some 46 then X.dropLast else X)
      = (if X.getLast? = some 46 then X.dropLast else X) := by
  by_cases hB : X.getLast? = some 46
  · have hne : X ≠ [] := by
      intro h
      rw [h] at hB
      simp at hB
    simp [hB, hne]
  · simp [hB]

/-- C8: for every plain ISO9660 name (at most 255 bytes, the capacity of the
on-media name-length field), the resolved name equals the raw identifier
with everything from the first `';'` onward removed, then one trailing `'.'`
dropped, then ASCII letters folded to lowercase; in particular
`README.TXT;1` resolves to `readme.txt` and `DOCS.;1` to `docs`. -/
theorem C8_plain_name_normalization (src : List Nat) (h : src.length ≤ 255) :
    iso9660_parse_filename src = spec_plain_name src ∧
    iso9660_parse_filename (strBytes "README.TXT;1") = strBytes "readme.txt" ∧
    iso9660_parse_filename (strBytes "DOCS.;1") = strBytes "docs" := by
  refine ⟨?_, by decide, by decide⟩
  have hcopy := iso9660_copy_name_eq_takeWhile src 0 (by simp [FS_MAX_NAME]; omega)
  simp only [iso9660_parse_filename, spec_plain_name]
  rw [hcopy, dropDotIf_eq]

/-- C8 witness at the claim's own examples. -/
theorem C8_plain_name_normalization_witness :
    iso9660_parse_filename (strBytes "README.TXT;1") = strBytes "readme.txt" :=
  (C8_plain_name_normalization (strBytes "README.TXT;1") (by decide)).2.1

/-- C4 counterexample: on the response whose first four bytes encode
last-LBA 1 and whose last four bytes are 0x00000800, the driver computes
capacity 2 (big-endian of the FIRST four bytes, plus one), not the 2049 the
claim's last-four-bytes reading gives. -/
theorem C4_capacity_counterexample :
    ide_atapi_capacity [0, 0, 0, 1, 0, 0, 8, 0] = 2 ∧
    claim_capacity_last4 [0, 0, 0, 1, 0, 0, 8, 0] = 2049 ∧ (2 : Nat) ≠ 2049 := by
  refine ⟨by decide, by decide, by decide⟩

/-- C4 (amended): for every successful READ CAPACITY(10) exchange the driver
reads an 8-byte (4-word) response and computes the capacity as
`last_LBA + 1` where `last_LBA` is the big-endian 32-bit value formed from
the FIRST 4 bytes of the response (the SCSI returned-LBA field). -/
theorem C4_read_capacity_first4 (b0 b1 b2 b3 b4 b5 b6 b7 : Nat)
    (h0 : b0 < 256) (h1 : b1 < 256) (h2 : b2 < 256) (h3 : b3 < 256) :
    ide_atapi_capacity [b0, b1, b2, b3, b4, b5, b6, b7]
      = (16777216 * b0 + 65536 * b1 + 256 * b2 + b3 + 1) % 4294967296 := by
  have e1 : (b0 + 256 * b1) / 256 = b1 := by omega
  have e2 : (b2 + 256 * b3) / 256 = b3 := by omega
  have e3 : b0 % 256 = b0 := by omega
  have e4 : b2 % 256 = b2 := by omega
  have e5 : b1 % 256 = b1 := by omega
  have e6 : b3 % 256 = b3 := by omega
  simp [ide_atapi_capacity, ide_capacity_data, ide_capacity_word, getB, e1, e2, e3, e4, e5, e6]

/-- C4 witness: a device reporting last LBA 0x00000100 yields capacity 257. -/
theorem C4_read_capacity_first4_witness :
    ide_atapi_capacity [0, 0, 1, 0, 0, 0, 8, 0] = 257 := by
  have h := C4_read_capacity_first4 0 0 1 0 0 0 8 0 (by decide) (by decide) (by decide) (by decide)
  simpa using h

/-- The ring cursor formula: the `k`-th allocation after state `st` uses
slot `(st.index + k) % 64`. -/
theorem allocSlotAt_eq (st : IsoCache) (k : Nat) :
    allocSlotAt st k = (st.index + k) % ISO9660_MAX_CACHED_ENTRIES := by
  induction k generalizing st with
  | zero => simp [allocSlotAt, iso9660_alloc_node]
  | succ k ih =>
    show allocSlotAt (iso9660_alloc_node st).2 k = _
    rw [ih]
    simp only [iso9660_alloc_node, ISO9660_MAX_CACHED_ENTRIES]
    omega

/-- The ring slot number is always below 64. -/
theorem allocSlotAt_lt (st : IsoCache) (k : Nat) :
    allocSlotAt st k < ISO9660_MAX_CACHED_ENTRIES := by
  rw [allocSlotAt_eq]
  simp only [ISO9660_MAX_CACHED_ENTRIES]
  omega

/-- Iterating the allocator splits. -/
theorem allocIter_add (st : IsoCache) (a b : Nat) :
    allocIter st (a + b) = allocIter (allocIter st a) b := by
  induction a generalizing st with
  | zero => simp [allocIter]
  | succ a ih =>
    rw [show a + 1 + b = (a + b) + 1 from by omega]
    show allocIter (iso9660_alloc_node st).2 (a + b) = allocIter (allocIter st (a + 1)) b
    exact ih (iso9660_alloc_node st).2

/-- The cursor after `k` allocations, modulo the ring size. -/
theorem allocIter_index_mod (st : IsoCache) (k : Nat) :
    (allocIter st k).index % ISO9660_MAX_CACHED_ENTRIES
      = (st.index + k) % ISO9660_MAX_CACHED_ENTRIES := by
  induction k generalizing st with
  | zero => simp [allocIter]
  | succ k ih =>
    show (allocIter (iso9660_alloc_node st).2 k).index % _ = _
    rw [ih]
    simp only [iso9660_alloc_node, ISO9660_MAX_CACHED_ENTRIES]
    omega

/-- Allocation slot in terms of the state reached. -/
theorem allocSlotAt_iter (st : IsoCache) (k : Nat) :
    allocSlotAt st (k + 1) = allocSlotAt (iso9660_alloc_node st).2 k := rfl

/-- An allocation leaves every other slot's content unchanged. -/
theorem alloc_preserves (st : IsoCache) (i : Fin ISO9660_MAX_CACHED_ENTRIES)
    (h : (i : Nat) ≠ st.index % ISO9660_MAX_CACHED_ENTRIES) :
    (iso9660_alloc_node st).2.slots i = st.slots i := by
  simp [iso9660_alloc_node, h]

/-- C9: the node ring is a fixed 64-slot arena with a wrapping cursor: the
allocation `j` steps after allocation `k` uses a different slot for
`1 ≤ j ≤ 63` and leaves allocation `k`'s slot content untouched throughout,
while the 64th subsequent allocation reuses allocation `k`'s slot and clears
it. -/
theorem C9_node_ring (st : IsoCache) (k j : Nat) (h1 : 1 ≤ j) (h2 : j ≤ 63) :
    allocSlotAt st (k + j) ≠ allocSlotAt st k
    ∧ allocSlotAt st (k + 64) = allocSlotAt st k
    ∧ (allocIter st (k + 1 + j)).slots ⟨allocSlotAt st k, allocSlotAt_lt st k⟩
        = (allocIter st (k + 1)).slots ⟨allocSlotAt st k, allocSlotAt_lt st k⟩
    ∧ (allocIter st (k + 65)).slots ⟨allocSlotAt st k, allocSlotAt_lt st k⟩ = clearedSlot := by
  refine ⟨?_, ?_, ?_, ?_⟩
  · rw [allocSlotAt_eq, allocSlotAt_eq]
    simp only [ISO9660_MAX_CACHED_ENTRIES]
    omega
  · rw [allocSlotAt_eq, allocSlotAt_eq]
    simp only [ISO9660_MAX_CACHED_ENTRIES]
    omega
  · clear h1
    induction j with
    | zero => rfl
    | succ j ih =>
      have hj : j ≤ 63 := by omega
      have hstep : allocIter st (k + 1 + (j + 1)) = (iso9660_alloc_node (allocIter st (k + 1 + j))).2 := by
        have : k + 1 + (j + 1) = (k + 1 + j) + 1 := by omega
        rw [this, allocIter_add]
        rfl
      rw [hstep, alloc_preserves]
      · exact ih hj
      · have hs := allocSlotAt_eq st k
        have hidx := allocIter_index_mod st (k + 1 + j)
        simp only [Fin.val_mk]
        simp only [ISO9660_MAX_CACHED_ENTRIES] at *
        omega
  · have hstep : allocIter st (k + 65) = (iso9660_alloc_node (allocIter st (k + 64))).2 := by
      have : k + 65 = (k + 64) + 1 := by omega
      rw [this, allocIter_add]
      rfl
    rw [hstep]
    simp only [iso9660_alloc_node]
    have hidx := allocIter_index_mod st (k + 64)
    have hslot := allocSlotAt_eq st k
    simp only [ISO9660_MAX_CACHED_ENTRIES] at *
    have : allocSlotAt st k = (allocIter st (k + 64)).index % 64 := by omega
    simp [this]

/-- C9 witness: from a fresh cache (cursor 0), allocation 1 uses a slot
other than allocation 0, allocation 64 reuses allocation 0's slot, and after
it that slot is cleared. -/
theorem C9_node_ring_witness :
    allocSlotAt freshCache (0 + 1) ≠ allocSlotAt freshCache 0
    ∧ allocSlotAt freshCache (0 + 64) = allocSlotAt freshCache 0
    ∧ (allocIter freshCache 65).slots ⟨allocSlotAt freshCache 0, allocSlotAt_lt freshCache 0⟩
        = clearedSlot := by
  have h := C9_node_ring freshCache 0 1 (by decide) (by decide)
  exact ⟨h.1, h.2.1, h.2.2.2⟩

/-- C6: the first successful mount sets the global root; every later call —
successful or not — leaves `fs_root` unchanged; a successful driver mount's
root is always returned to the caller. -/
theorem C6_first_mount_is_root {α : Type} (st : VfsState α) (drive : Nat) (fstype : String) :
    (∀ r, st.root = some r → (fs_mount st drive fstype).2.root = some r)
    ∧ (fs_find st.filesystems fstype = none → fs_mount st drive fstype = (none, st))
    ∧ (∀ fs, fs_find st.filesystems fstype = some fs → fs.mount = none →
        fs_mount st drive fstype = (none, st))
    ∧ (∀ fs m, fs_find st.filesystems fstype = some fs → fs.mount = some m →
        (fs_mount st drive fstype).1 = m drive
        ∧ (m drive = none → (fs_mount st drive fstype).2 = st)
        ∧ (st.root = none → ∀ r, m drive = some r →
            (fs_mount st drive fstype).2.root = some r)) := by
  refine ⟨?_, ?_, ?_, ?_⟩
  · intro r hr
    unfold fs_mount
    rcases hf : fs_find st.filesystems fstype with _ | fs
    · simpa [hf] using hr
    · rcases hm : fs.mount with _ | m
      · simpa [hf, hm] using hr
      · rcases hd : m drive with _ | r2
        · simpa [hf, hm, hd] using hr
        · simp [hf, hm, hd, hr]
  · intro hf
    unfold fs_mount
    simp [hf]
  · intro fs hf hm
    unfold fs_mount
    simp [hf, hm]
  · intro fs m hf hm
    unfold fs_mount
    rcases hd : m drive with _ | r2
    · simp [hf, hm, hd]
    · rcases hr : st.root with _ | r0
      · simp [hf, hm, hd, hr]
      · simp [hf, hm, hd, hr]


/-- C10: `sys_fopen` starts the read cursor at 0; a `sys_fread` returning
`n > 0` advances the cursor by exactly `n` (in `uint32_t` arithmetic, which
is exact whenever the sum stays below 2^32); a read returning 0 or an error
leaves the cursor unchanged; and `sys_fread` / `sys_fsize` on a descriptor
outside 3..18 or on a closed slot return -1 without touching the table. -/
theorem C10_fd_cursor_discipline {ν : Type} (namei : List Nat → Option ν) (flagsOf : ν → Nat)
    (readFn : ν → Nat → Nat → Int) (lengthOf : ν → Nat) (tbl : FdTable ν)
    (fd size : Nat) (path : List Nat) :
    (∀ i node, firstFreeFd tbl = some i → namei path = some node →
       flagsOf node &&& FS_DIRECTORY = 0 →
       sys_fopen namei flagsOf tbl path
         = ((((i : Nat) + 3 : Nat) : Int),
            fdUpdate tbl i (some { node := node, offset := 0 })))
    ∧ (∀ h : 3 ≤ fd ∧ fd < 3 + MAX_OPEN_FILES, ∀ e,
        tbl ⟨fd - 3, by omega⟩ = some e →
        (0 < readFn e.node e.offset size →
          sys_fread readFn tbl fd size
            = (readFn e.node e.offset size,
               fdUpdate tbl ⟨fd - 3, by omega⟩
                 (some { node := e.node
                         offset := (e.offset + (readFn e.node e.offset size).toNat)
                                     % 4294967296 })))
        ∧ (0 < readFn e.node e.offset size →
            e.offset + (readFn e.node e.offset size).toNat < 4294967296 →
            ((sys_fread readFn tbl fd size).2 ⟨fd - 3, by omega⟩)
              = some { node := e.node
                       offset := e.offset + (readFn e.node e.offset size).toNat })
        ∧ (readFn e.node e.offset size ≤ 0 →
            sys_fread readFn tbl fd size = (readFn e.node e.offset size, tbl)))
    ∧ (fd < 3 ∨ 3 + MAX_OPEN_FILES ≤ fd →
        sys_fread readFn tbl fd size = (-1, tbl) ∧ sys_fsize lengthOf tbl fd = -1)
    ∧ (∀ h : 3 ≤ fd ∧ fd < 3 + MAX_OPEN_FILES,
        tbl ⟨fd - 3, by omega⟩ = none →
        sys_fread readFn tbl fd size = (-1, tbl) ∧ sys_fsize lengthOf tbl fd = -1) := by
  refine ⟨?_, ?_, ?_, ?_⟩
  · intro i node hi hn hfl
    unfold sys_fopen
    rw [hi, hn]
    simp [hfl]
  · intro h e he
    refine ⟨?_, ?_, ?_⟩
    · intro hpos
      simp only [sys_fread]
      rw [dif_pos h]
      simp only [he]
      rw [if_pos hpos]
    · intro hpos hlt
      simp only [sys_fread]
      rw [dif_pos h]
      simp only [he]
      rw [if_pos hpos]
      simp only [fdUpdate, if_pos rfl]
      rw [Nat.mod_eq_of_lt hlt]
      simp
    · intro hneg
      simp only [sys_fread]
      rw [dif_pos h]
      simp only [he]
      rw [if_neg (not_lt.mpr hneg)]
  · intro hbad
    constructor
    · unfold sys_fread
      rw [dif_neg (by omega)]
    · unfold sys_fsize
      rw [dif_neg (by omega)]
  · intro h he
    constructor
    · unfold sys_fread
      rw [dif_pos h]
      simp only [he]
    · unfold sys_fsize
      rw [dif_pos h]
      simp only [he]

/-- On a device whose BSY bit never clears, the BSY countdown exhausts its
whole budget: the loop ends with `timeout = 0` after `timeout + 1` status
reads. -/
theorem ide_wait_bsy_loop_busy (bus : IdeBus)
    (hB : ∀ n, bus.status n &&& ATA_SR_BSY ≠ 0) (timeout : Nat) :
    ∀ t, ide_wait_bsy_loop bus t timeout = (0, t + timeout + 1) := by
  induction timeout with
  | zero =>
    intro t
    unfold ide_wait_bsy_loop
    simp [hB t]
  | succ tmo ih =>
    intro t
    unfold ide_wait_bsy_loop
    rw [if_neg (hB t)]
    show ide_wait_bsy_loop bus (t + 1) tmo = _
    rw [ih (t + 1)]
    congr 1
    omega

/-- As above for the DRQ wait, provided ERR and DF also stay clear. -/
theorem ide_wait_drq_loop_busy (bus : IdeBus)
    (hB : ∀ n, bus.status n &&& ATA_SR_BSY ≠ 0)
    (hE : ∀ n, bus.status n &&& ATA_SR_ERR = 0)
    (hD : ∀ n, bus.status n &&& ATA_SR_DF = 0) (timeout : Nat) :
    ∀ t, ide_wait_drq_loop bus t timeout = (IDE_ERR_TIMEOUT, t + timeout) := by
  induction timeout with
  | zero =>
    intro t
    rfl
  | succ tmo ih =>
    intro t
    unfold ide_wait_drq_loop
    have h3 : ¬(bus.status t &&& ATA_SR_BSY = 0 ∧ bus.status t &&& ATA_SR_DRQ ≠ 0) := by
      intro hc
      exact hB t hc.1
    simp only [hE t, hD t]
    rw [if_neg (by simp), if_neg (by simp), if_neg h3, ih (t + 1)]
    congr 1
    omega

/-- The re-reading BSY loop inside `ide_identify` also exhausts its budget. -/
theorem ide_identify_wait_busy (bus : IdeBus)
    (hB : ∀ n, bus.status n &&& ATA_SR_BSY ≠ 0) (timeout : Nat) :
    ∀ s t, s &&& ATA_SR_BSY ≠ 0 → (ide_identify_wait bus s t timeout).2.1 = 0 := by
  induction timeout with
  | zero =>
    intro s t hs
    unfold ide_identify_wait
    simp [hs]
  | succ tmo ih =>
    intro s t hs
    unfold ide_identify_wait
    rw [if_neg hs]
    exact ih (bus.status t) (t + 1) (hB t)

/-- Identification on an always-busy channel: the initial status read is
nonzero (BSY is set), the BSY loop exhausts its budget, and the function
reports IDE_TYPE_NONE. -/
theorem ide_identify_busy_none (bus : IdeBus)
    (hB : ∀ n, bus.status n &&& ATA_SR_BSY ≠ 0) (t d : Nat) :
    (ide_identify bus t d).1 = IDE_TYPE_NONE := by
  unfold ide_identify
  have hs0 : bus.status (ide_400ns_delay (ide_400ns_delay t)) ≠ 0 := by
    intro hc
    have := hB (ide_400ns_delay (ide_400ns_delay t))
    rw [hc] at this
    simp at this
  rw [if_neg hs0]
  have hw := ide_identify_wait_busy bus hB ATA_TIMEOUT
    (bus.status (ide_400ns_delay (ide_400ns_delay t)))
    (ide_400ns_delay (ide_400ns_delay t) + 1)
    (hB (ide_400ns_delay (ide_400ns_delay t)))
  rw [if_pos hw]

/-- C7 (amended): on a device model whose status register always shows BSY,
every polling entry point of the driver terminates within the ATA_TIMEOUT
iteration budget: the BSY wait consumes exactly ATA_TIMEOUT + 1 status reads
and returns Timeout; the DRQ wait (when ERR and DF stay clear) consumes
ATA_TIMEOUT reads and returns Timeout; ATA sector read/write, ATAPI read and
eject on a present device of the right type return Timeout; identification
reports the device as absent (IDE_TYPE_NONE) rather than a distinct timeout
failure. -/
theorem C7_polling_timeout_bounded (bus : IdeBus) (devs : Nat → IdeDev)
    (drive lba sectors t d : Nat)
    (hB : ∀ n, bus.status n &&& ATA_SR_BSY ≠ 0) :
    (ide_wait_bsy bus t = (IDE_ERR_TIMEOUT, t + ATA_TIMEOUT + 1))
    ∧ ((∀ n, bus.status n &&& ATA_SR_ERR = 0) → (∀ n, bus.status n &&& ATA_SR_DF = 0) →
        ide_wait_drq bus t = (IDE_ERR_TIMEOUT, t + ATA_TIMEOUT))
    ∧ (drive < IDE_MAX_DRIVES → (devs drive).present = true →
        (devs drive).dtype = IDE_TYPE_ATA →
        (ide_read_sectors devs bus drive lba sectors t d).1 = IDE_ERR_TIMEOUT
        ∧ (ide_write_sectors devs bus drive lba sectors t).1 = IDE_ERR_TIMEOUT)
    ∧ (drive < IDE_MAX_DRIVES → (devs drive).present = true →
        (devs drive).dtype = IDE_TYPE_ATAPI →
        (ide_atapi_read devs bus drive lba sectors t d).1 = IDE_ERR_TIMEOUT
        ∧ (ide_atapi_eject devs bus drive t).1 = IDE_ERR_TIMEOUT)
    ∧ (ide_identify bus t d).1 = IDE_TYPE_NONE := by
  have hbsy : ∀ u, ide_wait_bsy bus u = (IDE_ERR_TIMEOUT, u + ATA_TIMEOUT + 1) := by
    intro u
    unfold ide_wait_bsy
    rw [ide_wait_bsy_loop_busy bus hB ATA_TIMEOUT u]
    simp
  refine ⟨hbsy t, ?_, ?_, ?_, ?_⟩
  · intro hE hD
    unfold ide_wait_drq
    exact ide_wait_drq_loop_busy bus hB hE hD ATA_TIMEOUT t
  · intro hdr hp hty
    constructor
    · unfold ide_read_sectors
      rw [if_neg (by omega), if_neg (by simp [hp]), if_neg (by simp [hty]), hbsy t]
      simp [IDE_ERR_TIMEOUT, IDE_OK]
    · unfold ide_write_sectors
      rw [if_neg (by omega), if_neg (by simp [hp]), if_neg (by simp [hty]), hbsy t]
      simp [IDE_ERR_TIMEOUT, IDE_OK]
  · intro hdr hp hty
    constructor
    · unfold ide_atapi_read
      rw [if_neg (by omega), if_neg (by simp [hp]), if_neg (by simp [hty]), hbsy t]
      simp [IDE_ERR_TIMEOUT, IDE_OK]
    · unfold ide_atapi_eject
      rw [if_neg (by omega), if_neg (by simp [hp]), if_neg (by simp [hty]), hbsy t]
      simp [IDE_ERR_TIMEOUT, IDE_OK]
  · exact ide_identify_busy_none bus hB t d

/-- C7 counterexample to the claim as stated: on the concrete always-busy
device, `ide_identify` — a listed polling entry point — does not return a
Timeout failure: it returns the device type IDE_TYPE_NONE, the very value a
probe of an absent channel (status reads 0) yields, so the timeout is not
reported as a failure code at all. -/
theorem C7_identify_counterexample :
    (ide_identify busyBus 0 0).1 = IDE_TYPE_NONE
    ∧ (ide_identify absentBus 0 0).1 = IDE_TYPE_NONE := by
  constructor
  · exact ide_identify_busy_none busyBus
      (fun n => show (128 : Nat) &&& ATA_SR_BSY ≠ 0 by decide) 0 0
  · rfl

/-- C7 witness: the always-busy device times out the BSY wait after exactly
the budget and identification reports no device. -/
theorem C7_polling_timeout_bounded_witness :
    ide_wait_bsy busyBus 0 = (IDE_ERR_TIMEOUT, 0 + ATA_TIMEOUT + 1)
    ∧ (ide_atapi_read (fun _ => ⟨true, IDE_TYPE_ATAPI⟩) busyBus 0 16 1 0 0).1
        = IDE_ERR_TIMEOUT := by
  have h := C7_polling_timeout_bounded busyBus (fun _ => ⟨true, IDE_TYPE_ATAPI⟩) 0 16 1 0 0
    (fun n => show (128 : Nat) &&& ATA_SR_BSY ≠ 0 by decide)
  exact ⟨h.1, (h.2.2.2.1 (by decide) rfl rfl).1⟩

/-- C5 (amended): `fs_namei` splits on `'/'`; `"."` and `".."` components
are no-ops; remaining components are resolved with `fs_finddir`;
`fs_namei("/")` returns the root for every driver (so no driver lookup is
consulted); `/a/b/c` resolves along the finddir chain and a missing
component gives NULL; interior repeated slashes and `"."` / `".."`
insertions do not change the result — but a LEADING `"//"` produces an
empty first component that is passed to `fs_finddir` (it is not skipped),
so `fs_namei("//a")` fails whenever the root has no empty-named entry
rather than equalling `fs_namei("/a")`. -/
theorem C5_namei_resolution {α : Type} (ops : VfsOps α) (r na nb nc : α) :
    fs_namei ops (some r) (some (strBytes "/")) = some r
    ∧ (fs_finddir ops (some r) (some (strBytes "a")) = some na →
       fs_finddir ops (some na) (some (strBytes "b")) = some nb →
       fs_finddir ops (some nb) (some (strBytes "c")) = some nc →
       fs_namei ops (some r) (some (strBytes "/a/b/c")) = some nc)
    ∧ (fs_finddir ops (some r) (some (strBytes "a")) = some na →
       fs_finddir ops (some na) (some (strBytes "missing")) = none →
       fs_namei ops (some r) (some (strBytes "/a/missing")) = none)
    ∧ fs_namei ops (some r) (some (strBytes "/a/../b"))
        = fs_namei ops (some r) (some (strBytes "/a/b"))
    ∧ fs_namei ops (some r) (some (strBytes "/a/./b"))
        = fs_namei ops (some r) (some (strBytes "/a/b"))
    ∧ fs_namei ops (some r) (some (strBytes "/a//b"))
        = fs_namei ops (some r) (some (strBytes "/a/b"))
    ∧ (fs_finddir ops (some r) (some ([] : List Nat)) = none →
       fs_namei ops (some r) (some (strBytes "//a")) = none) := by
  have sab : nameiLoop ops (some r) [97, 47, 98]
      = nameiLoop ops (fs_finddir ops (some r) (some [97])) [98] := by
    rw [nameiLoop]
    norm_num [nameiComponent, FS_MAX_NAME]
  refine ⟨?_, ?_, ?_, ?_, ?_, ?_, ?_⟩
  · rfl
  · intro h1 h2 h3
    rw [show strBytes "a" = [97] from by decide] at h1
    rw [show strBytes "b" = [98] from by decide] at h2
    rw [show strBytes "c" = [99] from by decide] at h3
    show nameiLoop ops (some r) [97, 47, 98, 47, 99] = some nc
    rw [nameiLoop]
    norm_num [nameiComponent, FS_MAX_NAME]
    rw [h1, nameiLoop]
    norm_num [nameiComponent, FS_MAX_NAME]
    rw [h2, nameiLoop]
    norm_num [nameiComponent, FS_MAX_NAME]
    rw [h3, nameiLoop]
  · intro h1 h2
    rw [show strBytes "a" = [97] from by decide] at h1
    rw [show strBytes "missing" = [109, 105, 115, 115, 105, 110, 103] from by decide] at h2
    show nameiLoop ops (some r) [97, 47, 109, 105, 115, 115, 105, 110, 103] = none
    rw [nameiLoop]
    norm_num [nameiComponent, FS_MAX_NAME]
    rw [h1, nameiLoop]
    norm_num [nameiComponent, FS_MAX_NAME]
    rw [h2, nameiLoop]
  · show nameiLoop ops (some r) [97, 47, 46, 46, 47, 98]
        = nameiLoop ops (some r) [97, 47, 98]
    have s1 : nameiLoop ops (some r) [97, 47, 46, 46, 47, 98]
        = nameiLoop ops (fs_finddir ops (some r) (some [97])) [46, 46, 47, 98] := by
      rw [nameiLoop]
      norm_num [nameiComponent, FS_MAX_NAME]
    rw [s1, sab]
    rcases fs_finddir ops (some r) (some [97]) with _ | x
    · simp only [nameiLoop]
    · have s3 : nameiLoop ops (some x) [46, 46, 47, 98] = nameiLoop ops (some x) [98] := by
        rw [nameiLoop]
        norm_num [nameiComponent, FS_MAX_NAME]
      rw [s3]
  · show nameiLoop ops (some r) [97, 47, 46, 47, 98]
        = nameiLoop ops (some r) [97, 47, 98]
    have s1 : nameiLoop ops (some r) [97, 47, 46, 47, 98]
        = nameiLoop ops (fs_finddir ops (some r) (some [97])) [46, 47, 98] := by
      rw [nameiLoop]
      norm_num [nameiComponent, FS_MAX_NAME]
    rw [s1, sab]
    rcases fs_finddir ops (some r) (some [97]) with _ | x
    · simp only [nameiLoop]
    · have s3 : nameiLoop ops (some x) [46, 47, 98] = nameiLoop ops (some x) [98] := by
        rw [nameiLoop]
        norm_num [nameiComponent, FS_MAX_NAME]
      rw [s3]
  · show nameiLoop ops (some r) [97, 47, 47, 98]
        = nameiLoop ops (some r) [97, 47, 98]
    have s1 : nameiLoop ops (some r) [97, 47, 47, 98]
        = nameiLoop ops (fs_finddir ops (some r) (some [97])) [98] := by
      rw [nameiLoop]
      norm_num [nameiComponent, FS_MAX_NAME]
    rw [s1, sab]
  · intro h0
    show nameiLoop ops (some r) [47, 97] = none
    rw [nameiLoop]
    norm_num [nameiComponent, FS_MAX_NAME]
    rw [h0, nameiLoop]
    simp

/-- C5 witness: on the concrete two-node tree, `/a` resolves to node 1 along
the finddir chain and `/` returns the root. -/
theorem C5_namei_resolution_witness :
    fs_namei cexOps (some 0) (some (strBytes "/")) = some 0
    ∧ fs_namei cexOps (some 0) (some (strBytes "//a")) = none := by
  have h := C5_namei_resolution cexOps 0 1 1 1
  exact ⟨h.1, h.2.2.2.2.2.2 (by decide)⟩

/-- C5 counterexample to the claim as stated: on the concrete tree
containing `/a`, `fs_namei("//a")` (NULL, because the leading empty
component is looked up via finddir and fails) differs from
`fs_namei("/a")` (node 1). -/
theorem C5_namei_counterexample :
    fs_namei cexOps (some 0) (some (strBytes "//a"))
      ≠ fs_namei cexOps (some 0) (some (strBytes "/a"))
    ∧ fs_namei cexOps (some 0) (some (strBytes "/a")) = some 1 := by
  have ha : fs_finddir cexOps (some 0) (some [97]) = some 1 := by decide
  have h0 : fs_finddir cexOps (some 0) (some ([] : List Nat)) = none := by decide
  have hA : fs_namei cexOps (some 0) (some (strBytes "/a")) = some 1 := by
    show nameiLoop cexOps (some 0) [97] = some 1
    rw [nameiLoop]
    norm_num [nameiComponent, FS_MAX_NAME]
    rw [ha, nameiLoop]
  have hB : fs_namei cexOps (some 0) (some (strBytes "//a")) = none := by
    show nameiLoop cexOps (some 0) [47, 97] = none
    rw [nameiLoop]
    norm_num [nameiComponent, FS_MAX_NAME]
    rw [h0, nameiLoop]
    simp
  rw [hA, hB]
  simp

/-- `getD` through `take`. -/
theorem getD_take (l : List Nat) (k t : Nat) (h : k < t) :
    (l.take t).getD k 0 = l.getD k 0 := by
  simp [getB, List.getD, List.getElem?_take, h]

/-- `getD` through `drop`. -/
theorem getD_drop (l : List Nat) (s k : Nat) :
    (l.drop s).getD k 0 = l.getD (s + k) 0 := by
  simp [List.getD, List.getElem?_drop]

/-- On a device whose reads all succeed with full 2048-byte sectors, the
copy loop of `iso9660_read` succeeds, copies exactly `remaining` bytes, and
byte `k` of the result is the device byte at global position
`sector * 2048 + sectorOffset + k`. -/
theorem iso9660_read_loop_ok (disk : Nat → List Nat)
    (hlen : ∀ s, (disk s).length = ISO9660_SECTOR_SIZE) :
    ∀ remaining sector so (h : so < ISO9660_SECTOR_SIZE),
      ∃ bs, iso9660_read_loop (fun s => some (disk s)) sector so remaining h = .ok bs
        ∧ bs.length = remaining
        ∧ ∀ k, k < remaining →
            bs.getD k 0 = diskByte disk (sector * ISO9660_SECTOR_SIZE + so + k) := by
  intro remaining
  induction remaining using Nat.strong_induction_on with
  | _ remaining ih =>
    intro sector so h
    rw [iso9660_read_loop]
    by_cases h0 : remaining = 0
    · subst h0
      exact ⟨[], by simp, by simp, by omega⟩
    · rw [dif_neg h0]
      have hso : so < 2048 := by simpa [ISO9660_SECTOR_SIZE] using h
      have htc1 : 1 ≤ min (ISO9660_SECTOR_SIZE - so) remaining := by
        simp only [ISO9660_SECTOR_SIZE]
        omega
      obtain ⟨rest, hrest, hrlen, hrb⟩ :=
        ih (remaining - min (ISO9660_SECTOR_SIZE - so) remaining) (by omega)
          (sector + 1) 0 (by simp [ISO9660_SECTOR_SIZE])
      dsimp only
      rw [hrest]
      refine ⟨((disk sector).drop so).take (min (ISO9660_SECTOR_SIZE - so) remaining) ++ rest,
        rfl, ?_, ?_⟩
      · simp only [List.length_append, List.length_take, List.length_drop, hlen sector,
          hrlen]
        simp only [ISO9660_SECTOR_SIZE] at *
        omega
      · intro k hk
        have hchunklen :
            (((disk sector).drop so).take (min (ISO9660_SECTOR_SIZE - so) remaining)).length
              = min (ISO9660_SECTOR_SIZE - so) remaining := by
          simp only [List.length_take, List.length_drop, hlen sector]
          simp only [ISO9660_SECTOR_SIZE] at *
          omega
        by_cases hkc : k < min (ISO9660_SECTOR_SIZE - so) remaining
        · rw [List.getD_append _ _ 0 k (by omega)]
          rw [getD_take _ _ _ hkc, getD_drop]
          have hlt : so + k < 2048 := by
            simp only [ISO9660_SECTOR_SIZE] at hkc
            omega
          unfold diskByte getB
          have hdiv : (sector * ISO9660_SECTOR_SIZE + so + k) / ISO9660_SECTOR_SIZE
              = sector := by
            simp only [ISO9660_SECTOR_SIZE]
            omega
          have hmod : (sector * ISO9660_SECTOR_SIZE + so + k) % ISO9660_SECTOR_SIZE
              = so + k := by
            simp only [ISO9660_SECTOR_SIZE]
            omega
          rw [hdiv, hmod]
        · rw [List.getD_append_right _ _ 0 k (by omega), hchunklen]
          rw [hrb (k - min (ISO9660_SECTOR_SIZE - so) remaining) (by omega)]
          have harith : (sector + 1) * ISO9660_SECTOR_SIZE + 0
                + (k - min (ISO9660_SECTOR_SIZE - so) remaining)
              = sector * ISO9660_SECTOR_SIZE + so + k := by
            simp only [ISO9660_SECTOR_SIZE] at *
            omega
          rw [harith]

/-- If any sector the copy loop will touch fails to read, the loop reports
the I/O error. -/
theorem iso9660_read_loop_err (rs : Nat → Option (List Nat)) :
    ∀ remaining sector so (h : so < ISO9660_SECTOR_SIZE),
      (∃ i, i < sectorsNeeded so remaining ∧ rs (sector + i) = none) →
      iso9660_read_loop rs sector so remaining h = .error FS_ERR_IO_CODE := by
  intro remaining
  induction remaining using Nat.strong_induction_on with
  | _ remaining ih =>
    intro sector so h hfail
    obtain ⟨i, hi, hnone⟩ := hfail
    rw [iso9660_read_loop]
    by_cases h0 : remaining = 0
    · subst h0
      simp [sectorsNeeded] at hi
    · rw [dif_neg h0]
      have hso : so < 2048 := by simpa [ISO9660_SECTOR_SIZE] using h
      rcases hs : rs sector with _ | sec
      · rfl
      · have hi0 : i ≠ 0 := by
          intro hc
          subst hc
          simp only [Nat.add_zero] at hnone
          rw [hs] at hnone
          exact Option.noConfusion hnone
        have hN : sectorsNeeded so remaining = (so + remaining + 2047) / 2048 := by
          simp [sectorsNeeded, h0, ISO9660_SECTOR_SIZE]
        by_cases hsmall : remaining ≤ ISO9660_SECTOR_SIZE - so
        · exfalso
          have : sectorsNeeded so remaining = 1 := by
            rw [hN]
            simp only [ISO9660_SECTOR_SIZE] at hsmall
            omega
          omega
        · have hrec := ih (remaining - min (ISO9660_SECTOR_SIZE - so) remaining)
            (by simp only [ISO9660_SECTOR_SIZE] at *; omega)
            (sector + 1) 0 (by simp [ISO9660_SECTOR_SIZE])
            ⟨i - 1, ?_, ?_⟩
          · dsimp only
            rw [hrec]
          · have hmin : min (ISO9660_SECTOR_SIZE - so) remaining
                = ISO9660_SECTOR_SIZE - so := by
              simp only [ISO9660_SECTOR_SIZE] at *
              omega
            rw [hmin]
            have hN' : sectorsNeeded 0 (remaining - (ISO9660_SECTOR_SIZE - so))
                = (so + remaining + 2047) / 2048 - 1 := by
              simp only [sectorsNeeded, ISO9660_SECTOR_SIZE] at *
              rw [if_neg (by omega)]
              omega
            rw [hN']
            rw [hN] at hi
            omega
          · have : sector + 1 + (i - 1) = sector + i := by omega
            rw [this]
            exact hnone

/-- The `uint32_t` size clamp of `iso9660_read` equals the mathematical
minimum as long as `offset + size` does not wrap. -/
theorem iso9660_clamp_eq (S offset size : Nat) (hov : offset + size < 4294967296)
    (hoff : offset < S) :
    (if S < (offset + size) % 4294967296 then S - offset else size)
      = min size (S - offset) := by
  rw [Nat.mod_eq_of_lt hov]
  by_cases hc : S < offset + size
  · rw [if_pos hc]
    omega
  · rw [if_neg hc]
    omega

/-- C1 (amended): on a device whose sector reads all succeed with 2048-byte
sectors, and provided `offset + size` does not overflow `uint32_t`,
`iso9660_read` returns `min(size, S - offset)` bytes when `offset < S`
(0 when `offset ≥ S`), and the returned bytes are exactly the file's content
bytes at positions `[offset, offset + ret)` — including spans crossing a
sector boundary; if any sector the read touches fails, the call returns the
I/O error instead. -/
theorem C1_iso9660_read_correct (disk : Nat → List Nat)
    (hlen : ∀ s, (disk s).length = ISO9660_SECTOR_SIZE)
    (lba S offset size : Nat) (hov : offset + size < 4294967296) :
    (S ≤ offset → iso9660_read (fun s => some (disk s)) lba S offset size = .ok [])
    ∧ (offset < S →
        ∃ bs, iso9660_read (fun s => some (disk s)) lba S offset size = .ok bs
          ∧ bs.length = min size (S - offset)
          ∧ ∀ k, k < bs.length →
              bs.getD k 0 = diskByte disk (lba * ISO9660_SECTOR_SIZE + offset + k))
    ∧ (∀ rs : Nat → Option (List Nat), offset < S →
        (∃ i, i < sectorsNeeded (offset % ISO9660_SECTOR_SIZE) (min size (S - offset))
          ∧ rs (lba + offset / ISO9660_SECTOR_SIZE + i) = none) →
        iso9660_read rs lba S offset size = .error FS_ERR_IO_CODE) := by
  refine ⟨?_, ?_, ?_⟩
  · intro hle
    unfold iso9660_read
    rw [if_pos hle]
  · intro hoff
    unfold iso9660_read
    rw [if_neg (by omega)]
    rw [iso9660_clamp_eq S offset size hov hoff]
    obtain ⟨bs, hbs, hblen, hbb⟩ := iso9660_read_loop_ok disk hlen (min size (S - offset))
      (lba + offset / ISO9660_SECTOR_SIZE) (offset % ISO9660_SECTOR_SIZE)
      (Nat.mod_lt _ (by simp [ISO9660_SECTOR_SIZE]))
    refine ⟨bs, hbs, hblen, ?_⟩
    intro k hk
    rw [hbb k (by omega)]
    have harith : (lba + offset / ISO9660_SECTOR_SIZE) * ISO9660_SECTOR_SIZE
          + offset % ISO9660_SECTOR_SIZE + k
        = lba * ISO9660_SECTOR_SIZE + offset + k := by
      simp only [ISO9660_SECTOR_SIZE]
      omega
    rw [harith]
  · intro rs hoff hfail
    unfold iso9660_read
    rw [if_neg (by omega)]
    rw [iso9660_clamp_eq S offset size hov hoff]
    exact iso9660_read_loop_err rs (min size (S - offset))
      (lba + offset / ISO9660_SECTOR_SIZE) (offset % ISO9660_SECTOR_SIZE)
      (Nat.mod_lt _ (by simp [ISO9660_SECTOR_SIZE])) hfail

/-- C1 counterexample to the claim as stated: at `offset = 1`,
`size = 4294967295` on a 2-byte file, the `uint32_t` sum `offset + size`
wraps to 0, the clamp misfires, and the read returns 4294967295 bytes
instead of `min(size, S - offset) = 1`. -/
theorem C1_read_counterexample :
    ∃ bs, iso9660_read (fun s => some (allZeroDisk s)) 0 2 1 4294967295 = .ok bs
      ∧ bs.length = 4294967295
      ∧ bs.length ≠ min 4294967295 (2 - 1) := by
  obtain ⟨bs, hbs, hlen, _⟩ := iso9660_read_loop_ok allZeroDisk
    (fun s => by simp [allZeroDisk])
    4294967295 (0 + 1 / ISO9660_SECTOR_SIZE) (1 % ISO9660_SECTOR_SIZE)
    (Nat.mod_lt _ (by simp [ISO9660_SECTOR_SIZE]))
  refine ⟨bs, ?_, by rw [hlen], by rw [hlen]; decide⟩
  unfold iso9660_read
  rw [if_neg (by omega)]
  dsimp only
  rw [show (if 2 < (1 + 4294967295) % 4294967296 then 2 - 1 else 4294967295) = 4294967295
    from by decide]
  exact hbs

/-- C1 witness: a 100-byte file read at offset 50 for 60 bytes returns the
remaining 50 bytes. -/
theorem C1_iso9660_read_correct_witness :
    ∃ bs, iso9660_read (fun s => some (allZeroDisk s)) 10 100 50 60 = .ok bs
      ∧ bs.length = min 60 (100 - 50) := by
  obtain ⟨bs, h1, h2, h3⟩ := (C1_iso9660_read_correct allZeroDisk
    (fun s => by simp [allZeroDisk]) 10 100 50 60 (by omega)).2.1 (by omega)
  exact ⟨bs, h1, h2⟩

/-- The indexed search of `iso9660_readdir` agrees with the collecting walk:
with all sector reads succeeding, looking for entry `index` having already
passed `idx` non-dot records returns element `index - idx` of the collected
list, with the name resolved and the inode taken from `extent_lba_le`. -/
theorem iso9660_readdir_loop_eq_entries (disk : Nat → List Nat) (fsd : IsoFsData)
    (index : Nat) :
    ∀ fuel cur rem off idx buf, idx ≤ index →
      iso9660_readdir_loop (fun s => some (disk s)) fsd index fuel cur rem off idx buf
        = ((iso9660_entries_loop disk fuel cur rem off buf)[index - idx]?).map
            (fun e => { name := iso9660_resolve_name (fun s => some (disk s)) fsd e.1 e.2
                        inode := entExtent e.1 e.2 }) := by
  intro fuel
  induction fuel with
  | zero =>
    intro cur rem off idx buf hle
    rfl
  | succ fuel ih =>
    intro cur rem off idx buf hle
    rw [iso9660_readdir_loop, iso9660_entries_loop]
    by_cases hrem : rem = 0
    · simp [hrem]
    · rw [if_neg hrem, if_neg hrem]
      by_cases hoff : off = 0 ∨ ISO9660_SECTOR_SIZE ≤ off
      · rw [if_pos hoff, if_pos hoff]
        dsimp only [Option.map_some']
        by_cases hlen : entLength (disk cur) 0 = 0
        · simp only [if_pos hlen]
          by_cases hskip : rem < ISO9660_SECTOR_SIZE - 0
          · simp only [if_pos hskip]
            rfl
          · simp only [if_neg hskip]
            exact ih _ _ _ _ _ hle
        · simp only [if_neg hlen]
          by_cases hdot : entNameLen (disk cur) 0 = 1
              ∧ (getB (disk cur) (0 + 33) = 0 ∨ getB (disk cur) (0 + 33) = 1)
          · simp only [if_pos hdot]
            exact ih _ _ _ _ _ hle
          · simp only [if_neg hdot]
            by_cases hidx : idx = index
            · simp only [if_pos hidx]
              subst hidx
              simp
            · simp only [if_neg hidx]
              rw [show index - idx = (index - (idx + 1)) + 1 from by omega,
                List.getElem?_cons_succ]
              exact ih _ _ _ _ _ (by omega)
      · rw [if_neg hoff, if_neg hoff]
        dsimp only [Option.map_some']
        by_cases hlen : entLength buf off = 0
        · simp only [if_pos hlen]
          by_cases hskip : rem < ISO9660_SECTOR_SIZE - off
          · simp only [if_pos hskip]
            rfl
          · simp only [if_neg hskip]
            exact ih _ _ _ _ _ hle
        · simp only [if_neg hlen]
          by_cases hdot : entNameLen buf off = 1
              ∧ (getB buf (off + 33) = 0 ∨ getB buf (off + 33) = 1)
          · simp only [if_pos hdot]
            exact ih _ _ _ _ _ hle
          · simp only [if_neg hdot]
            by_cases hidx : idx = index
            · simp only [if_pos hidx]
              subst hidx
              simp
            · simp only [if_neg hidx]
              rw [show index - idx = (index - (idx + 1)) + 1 from by omega,
                List.getElem?_cons_succ]
              exact ih _ _ _ _ _ (by omega)

/-- Any node `iso9660_finddir` returns is built from some record of the
walk: its name is that record's display name (dot records special-cased,
otherwise the Rock Ridge > Joliet > plain chain) and it compares equal
(case-insensitively) to the requested name. -/
theorem iso9660_finddir_loop_name (rs : Nat → Option (List Nat)) (fsd : IsoFsData)
    (name : List Nat) :
    ∀ fuel cur rem off buf n,
      iso9660_finddir_loop rs fsd name fuel cur rem off buf = some n →
      ∃ b o, n.name = iso9660_entry_display_name rs fsd b o
        ∧ iso9660_compare_name n.name name = 0 := by
  intro fuel
  induction fuel with
  | zero =>
    intro cur rem off buf n h
    exact absurd h (by rw [iso9660_finddir_loop]; simp)
  | succ fuel ih =>
    intro cur rem off buf n h
    rw [iso9660_finddir_loop] at h
    by_cases hrem : rem = 0
    · rw [if_pos hrem] at h
      exact absurd h (by simp)
    · rw [if_neg hrem] at h
      by_cases hoff : off = 0 ∨ ISO9660_SECTOR_SIZE ≤ off
      · rw [if_pos hoff] at h
        rcases hrs : rs cur with _ | b2
        · rw [hrs] at h
          exact absurd h (by simp)
        · rw [hrs] at h
          dsimp only [Option.map_some'] at h
          by_cases hlen : entLength b2 0 = 0
          · rw [if_pos hlen] at h
            by_cases hskip : rem < ISO9660_SECTOR_SIZE - 0
            · rw [if_pos hskip] at h
              exact absurd h (by simp)
            · rw [if_neg hskip] at h
              exact ih _ _ _ _ _ h
          · rw [if_neg hlen] at h
            by_cases hcmp : iso9660_compare_name
                (iso9660_entry_display_name rs fsd b2 0) name = 0
            · rw [if_pos hcmp] at h
              refine ⟨b2, 0, ?_, ?_⟩
              · rw [← Option.some_inj.mp h]
              · rw [← Option.some_inj.mp h]
                exact hcmp
            · rw [if_neg hcmp] at h
              exact ih _ _ _ _ _ h
      · rw [if_neg hoff] at h
        dsimp only at h
        by_cases hlen : entLength buf off = 0
        · rw [if_pos hlen] at h
          by_cases hskip : rem < ISO9660_SECTOR_SIZE - off
          · rw [if_pos hskip] at h
            exact absurd h (by simp)
          · rw [if_neg hskip] at h
            exact ih _ _ _ _ _ h
        · rw [if_neg hlen] at h
          by_cases hcmp : iso9660_compare_name
              (iso9660_entry_display_name rs fsd buf off) name = 0
          · rw [if_pos hcmp] at h
            refine ⟨buf, off, ?_, ?_⟩
            · rw [← Option.some_inj.mp h]
            · rw [← Option.some_inj.mp h]
              exact hcmp
          · rw [if_neg hcmp] at h
            exact ih _ _ _ _ _ h

/-- C3: on a device whose sector reads all succeed, for a directory whose
extent holds exactly K non-dot records, `iso9660_readdir` returns, for every
index `i < K`, the `i`-th non-dot record in on-media order (name resolved
per the priority chain, inode = extent), and returns NULL at index K. -/
theorem C3_readdir_bounded_listing (disk : Nat → List Nat) (fsd : IsoFsData)
    (lba size : Nat) :
    (∀ i, i < (iso9660_nonDotEntries disk lba size).length →
       iso9660_readdir (fun s => some (disk s)) fsd lba size i
         = ((iso9660_nonDotEntries disk lba size)[i]?).map
             (fun e => { name := iso9660_resolve_name (fun s => some (disk s)) fsd e.1 e.2
                         inode := entExtent e.1 e.2 }))
    ∧ iso9660_readdir (fun s => some (disk s)) fsd lba size
        (iso9660_nonDotEntries disk lba size).length = none := by
  constructor
  · intro i hi
    unfold iso9660_readdir iso9660_nonDotEntries
    rw [iso9660_readdir_loop_eq_entries disk fsd i (size + 1) lba size 0 0 [] (by omega)]
    rfl
  · unfold iso9660_readdir iso9660_nonDotEntries
    rw [iso9660_readdir_loop_eq_entries disk fsd _ (size + 1) lba size 0 0 [] (by omega)]
    rw [Nat.sub_zero, List.getElem?_eq_none (by rfl)]
    rfl

/-- The Joliet decoder never hits its destination cap for sources that fit
a name field (at most 255 bytes, hence at most 127 code points), so it is
the spec's decode. -/
theorem ucs2Aux_eq_spec (n : Nat) :
    ∀ src : List Nat, src.length ≤ n → ∀ j, j + src.length / 2 ≤ FS_MAX_NAME - 1 →
      ucs2Aux FS_MAX_NAME src j = spec_joliet_decode src := by
  induction n with
  | zero =>
    intro src hlen j _
    rcases src with _ | ⟨a, _ | ⟨b, rest⟩⟩
    · rfl
    · rfl
    · simp at hlen
  | succ n ih =>
    intro src hlen j hj
    rcases src with _ | ⟨a, _ | ⟨b, rest⟩⟩
    · rfl
    · rfl
    · rw [ucs2Aux, spec_joliet_decode]
      have hjlt : j < FS_MAX_NAME - 1 := by
        simp only [List.length_cons, FS_MAX_NAME] at hj ⊢
        omega
      rw [if_pos hjlt]
      have hrest : rest.length ≤ n := by
        simp only [List.length_cons] at hlen
        omega
      have hjr : j + 1 + rest.length / 2 ≤ FS_MAX_NAME - 1 := by
        simp only [List.length_cons, FS_MAX_NAME] at hj ⊢
        omega
      by_cases h59 : 256 * a + b = 59
      · rw [if_neg (by simp [h59]), if_pos h59, if_pos h59]
      · by_cases h128 : 256 * a + b < 128
        · rw [if_pos ⟨h128, h59⟩, if_neg h59, if_pos h128, ih rest hrest (j + 1) hjr]
        · rw [if_neg (by tauto), if_neg h59, if_neg h128, if_neg h59,
            ih rest hrest (j + 1) hjr]

/-- C2: name resolution in `iso9660_readdir` / `iso9660_finddir` follows the
Rock Ridge > Joliet > plain priority: a record with a Rock Ridge NM name
resolves to it; with no Rock Ridge name Joliet's UCS-2 decode of the raw
name bytes is used when the mount has Joliet; otherwise the plain ISO9660
normalization; every dirent `readdir` returns and every node `finddir`
returns carries a name resolved this way. -/
theorem C2_name_resolution_priority (rs : Nat → Option (List Nat)) (fsd : IsoFsData)
    (disk : Nat → List Nat) (lba size index : Nat) (buf : List Nat) (off : Nat)
    (name : List Nat) :
    (∀ nm, iso9660_parse_rock_ridge_name rs fsd buf off = some nm →
       iso9660_resolve_name rs fsd buf off = nm)
    ∧ (iso9660_parse_rock_ridge_name rs fsd buf off = none → fsd.has_joliet = true →
       iso9660_resolve_name rs fsd buf off
         = iso9660_ucs2_to_ascii (entName buf off) FS_MAX_NAME)
    ∧ (iso9660_parse_rock_ridge_name rs fsd buf off = none → fsd.has_joliet = false →
       iso9660_resolve_name rs fsd buf off = iso9660_parse_filename (entName buf off))
    ∧ (fsd.has_rock_ridge = false → iso9660_parse_rock_ridge_name rs fsd buf off = none)
    ∧ (∀ d, iso9660_readdir (fun s => some (disk s)) fsd lba size index = some d →
        ∃ e, (iso9660_nonDotEntries disk lba size)[index]? = some e
          ∧ d.name = iso9660_resolve_name (fun s => some (disk s)) fsd e.1 e.2)
    ∧ (∀ n, iso9660_finddir rs fsd lba size name = some n →
        ∃ b o, n.name = iso9660_entry_display_name rs fsd b o
          ∧ iso9660_compare_name n.name name = 0)
    ∧ (∀ src : List Nat, src.length ≤ 255 →
        iso9660_ucs2_to_ascii src FS_MAX_NAME = spec_joliet_decode src) := by
  refine ⟨?_, ?_, ?_, ?_, ?_, ?_, ?_⟩
  · intro nm hnm
    unfold iso9660_resolve_name
    rw [hnm]
  · intro hnone hj
    unfold iso9660_resolve_name
    rw [hnone, hj]
    rfl
  · intro hnone hj
    unfold iso9660_resolve_name
    rw [hnone, hj]
    rfl
  · intro hrr
    unfold iso9660_parse_rock_ridge_name
    rw [hrr]
    rfl
  · intro d hd
    unfold iso9660_readdir at hd
    rw [iso9660_readdir_loop_eq_entries disk fsd index (size + 1) lba size 0 0 []
      (by omega), Nat.sub_zero] at hd
    rcases he : (iso9660_entries_loop disk (size + 1) lba size 0 [])[index]? with _ | e
    · rw [he] at hd
      exact absurd hd (by simp)
    · rw [he] at hd
      refine ⟨e, he, ?_⟩
      have := Option.some_inj.mp hd
      rw [← this]
  · intro n hn
    exact iso9660_finddir_loop_name rs fsd name (size + 1) lba size 0 [] n hn
  · intro src hsrc
    unfold iso9660_ucs2_to_ascii
    exact ucs2Aux_eq_spec src.length src le_rfl 0 (by simp only [FS_MAX_NAME]; omega)

/-- C3 witness: on the concrete directory (two dot records and
`HELLO.TXT;1`), index 0 yields `hello.txt` with inode 100 and index 1 is the
end of the listing. -/
theorem C3_readdir_bounded_listing_witness :
    iso9660_readdir (fun s => some (dirDiskW s)) fsdPlain 20 2048 0
      = some { name := strBytes "hello.txt", inode := 100 }
    ∧ iso9660_readdir (fun s => some (dirDiskW s)) fsdPlain 20 2048 1 = none := by
  have h := C3_readdir_bounded_listing dirDiskW fsdPlain 20 2048
  have hK : (iso9660_nonDotEntries dirDiskW 20 2048).length = 1 := by decide
  constructor
  · have h0 := h.1 0 (by rw [hK]; omega)
    rw [h0]
    decide
  · have h1 := h.2
    rw [hK] at h1
    exact h1

/-- C2 witness: the synthetic record carrying both a Rock Ridge NM entry
(`rrname`) and Joliet name bytes (UCS-2 `AB`) resolves to the Rock Ridge
name, not the Joliet decoding. -/
theorem C2_name_resolution_priority_witness :
    iso9660_resolve_name (fun _ => none) fsdBoth bufBoth 0 = strBytes "rrname"
    ∧ iso9660_ucs2_to_ascii (entName bufBoth 0) FS_MAX_NAME = strBytes "AB"
    ∧ strBytes "rrname" ≠ strBytes "AB" := by
  refine ⟨?_, by decide, by decide⟩
  exact (C2_name_resolution_priority (fun _ => none) fsdBoth (fun _ => []) 0 0 0
    bufBoth 0 []).1 (strBytes "rrname") (by decide)

/-- C6 witness: with the concrete driver registered, the first mount becomes
the root, a second mount leaves the earlier root in place yet still returns
its own root to the caller. -/
theorem C6_first_mount_is_root_witness :
    (fs_mount stW 2 "iso9660").2.root = some 42
    ∧ (fs_mount stW2 2 "iso9660").2.root = some 7
    ∧ (fs_mount stW2 2 "iso9660").1 = some 42 := by
  have h1 := C6_first_mount_is_root stW 2 "iso9660"
  have h2 := C6_first_mount_is_root stW2 2 "iso9660"
  refine ⟨?_, ?_, ?_⟩
  · exact (h1.2.2.2 fsW (fun _ => some 42) rfl rfl).2.2 rfl 42 rfl
  · exact h2.1 7 rfl
  · exact (h2.2.2.2 fsW (fun _ => some 42) rfl rfl).1

/-- C10 witness: opening a file lands it in slot 0 with cursor 0, and a read
returning an error reports -1. -/
theorem C10_fd_cursor_discipline_witness :
    sys_fopen (fun _ => some 5) (fun _ => FS_FILE) tblW (strBytes "/x")
      = (3, fdUpdate tblW ⟨0, by decide⟩ (some { node := 5, offset := 0 }))
    ∧ (sys_fread (fun _ _ _ => (-1 : Int)) tblW 3 10).1 = -1 := by
  have h := C10_fd_cursor_discipline (fun _ => some 5) (fun _ => FS_FILE)
    (fun _ _ _ => (-1 : Int)) (fun _ => 0) tblW 3 10 (strBytes "/x")
  constructor
  · exact h.1 ⟨0, by decide⟩ 5 (by decide) rfl (by decide)
  · have h4 := h.2.2.2 (by decide) rfl
    rw [h4.1]

end E93
